import Mathlib

/-!
Verification of the fastapi-blocks block registry and composition engine
(`src/fastapi_blocks/block_manager.py`, `src/fastapi_blocks/settings.py`).

Python dictionaries are modelled as association lists `AList α`
(`List (String × α)`) in insertion order: lookup returns the first entry
with a matching key, and assignment (`d[k] = v`) replaces the entries
carrying the key in place or appends a fresh entry at the end, exactly as
a Python dict preserves insertion order.  TOML / JSON style values are
modelled by the inductive type `Val`; every list-valued field of this
program (`requirements`, `dependancies`, `schemas`) is a list of strings,
so lists of strings are a flat constructor.
-/

set_option autoImplicit false

namespace FastapiBlocks

/-- A TOML-ish dynamic value, as produced by `tomllib.load` and
`pydantic`'s `model_dump` (strings, integers, booleans, `None`,
lists of strings). -/
inductive Val where
  | vstr (s : String)
  | vint (n : Int)
  | vbool (b : Bool)
  | vnone
  | vstrs (xs : List String)
  deriving DecidableEq, Repr

/-- Python `dict` with `String` keys, in insertion order. -/
abbrev AList (α : Type) : Type := List (String × α)

/-- `d.get(k)` / `k in d`: first entry whose key matches. -/
def alookup {α : Type} : AList α → String → Option α
  | [], _ => none
  | (k, v) :: rest, key => if k = key then some v else alookup rest key

/-- Python dict assignment `d[k] = v`: overwrite the entry in place when the
key is present, otherwise append at the end (insertion order preserved).
A Python dict never holds two entries with the same key, so replacing the
first matching entry models assignment exactly. -/
def ainsert {α : Type} : AList α → String → α → AList α
  | [], k, v => [(k, v)]
  | (pk, pv) :: rest, k, v =>
    if pk = k then (k, v) :: rest else (pk, pv) :: ainsert rest k v

@[simp] theorem alookup_nil {α : Type} (k : String) : alookup ([] : AList α) k = none := rfl

theorem alookup_cons {α : Type} (k key : String) (v : α) (rest : AList α) :
    alookup ((k, v) :: rest) key = if k = key then some v else alookup rest key := rfl

theorem alookup_append_left {α : Type} (l₁ l₂ : AList α) (k : String) (v : α)
    (h : alookup l₁ k = some v) : alookup (l₁ ++ l₂) k = some v := by
  induction l₁ with
  | nil => simp [alookup] at h
  | cons p rest ih =>
    obtain ⟨pk, pv⟩ := p
    rw [alookup_cons] at h
    by_cases hpk : pk = k
    · simp [alookup, hpk] at h ⊢
      exact h
    · simp [alookup, hpk] at h ⊢
      exact ih h

theorem alookup_append_of_none {α : Type} (l₁ l₂ : AList α) (k : String)
    (h : alookup l₁ k = none) : alookup (l₁ ++ l₂) k = alookup l₂ k := by
  induction l₁ with
  | nil => simp
  | cons p rest ih =>
    obtain ⟨pk, pv⟩ := p
    rw [alookup_cons] at h
    by_cases hpk : pk = k
    · simp [hpk] at h
    · simp [alookup, hpk] at h ⊢
      exact ih h

theorem alookup_isSome_append {α : Type} (l₁ l₂ : AList α) (k : String)
    (h : (alookup l₁ k).isSome) : (alookup (l₁ ++ l₂) k).isSome := by
  obtain ⟨v, hv⟩ := Option.isSome_iff_exists.mp h
  rw [alookup_append_left l₁ l₂ k v hv]
  rfl

theorem ainsert_of_absent {α : Type} (l : AList α) (k : String) (v : α)
    (h : alookup l k = none) : ainsert l k v = l ++ [(k, v)] := by
  induction l with
  | nil => rfl
  | cons p rest ih =>
    obtain ⟨pk, pv⟩ := p
    rw [alookup_cons] at h
    by_cases hpk : pk = k
    · simp [hpk] at h
    · simp only [hpk, if_neg, not_false_iff] at h
      simp [ainsert, hpk, ih h]

/-- Assigning the value already stored under a key leaves the dict
unchanged. -/
theorem ainsert_of_lookup_eq {α : Type} (l : AList α) (k : String) (v : α)
    (h : alookup l k = some v) : ainsert l k v = l := by
  induction l with
  | nil => simp [alookup] at h
  | cons p rest ih =>
    obtain ⟨pk, pv⟩ := p
    rw [alookup_cons] at h
    by_cases hpk : pk = k
    · simp only [hpk, if_pos] at h
      cases h
      simp [ainsert, hpk]
    · simp only [hpk, if_neg, not_false_iff] at h
      simp [ainsert, hpk, ih h]

theorem alookup_ainsert_self {α : Type} (l : AList α) (k : String) (v : α) :
    alookup (ainsert l k v) k = some v := by
  induction l with
  | nil => simp [ainsert, alookup]
  | cons p rest ih =>
    obtain ⟨pk, pv⟩ := p
    by_cases hpk : pk = k
    · simp [ainsert, hpk, alookup]
    · simp [ainsert, hpk, alookup_cons, ih]

theorem alookup_ainsert_ne {α : Type} (l : AList α) (k diff : String) (v : α)
    (h : diff ≠ k) : alookup (ainsert l k v) diff = alookup l diff := by
  have hne : ¬k = diff := fun he => h he.symm
  induction l with
  | nil => simp [ainsert, alookup, hne]
  | cons p rest ih =>
    obtain ⟨pk, pv⟩ := p
    by_cases hpk : pk = k
    · subst hpk
      simp [ainsert, alookup_cons, hne]
    · simp [ainsert, hpk, alookup_cons, ih]

theorem alookup_isSome_ainsert {α : Type} (l : AList α) (k diff : String) (v : α)
    (h : (alookup l diff).isSome) : (alookup (ainsert l k v) diff).isSome := by
  by_cases hk : diff = k
  · subst hk
    rw [alookup_ainsert_self]
    rfl
  · rw [alookup_ainsert_ne l k diff v hk]
    exact h

instance {ε α : Type} [DecidableEq ε] [DecidableEq α] : DecidableEq (Except ε α)
  | .ok a, .ok b =>
    if h : a = b then isTrue (by rw [h]) else isFalse (by intro hc; cases hc; exact h rfl)
  | .ok _, .error _ => isFalse (by intro hc; cases hc)
  | .error _, .ok _ => isFalse (by intro hc; cases hc)
  | .error e, .error f =>
    if h : e = f then isTrue (by rw [h]) else isFalse (by intro hc; cases hc; exact h rfl)

/-! ## C1 — additive-only merge (`BlockManager._load_block_config`, lines 382-388)

```python
if block_settings.name not in self.block_manager_info["blocks"]:
    self.block_manager_info["blocks"][block_settings.name] = block_info_dict
else:
    # If key not in block_manager_info, add it. Else, do nothing.
    for key, items in block_info_dict.items():
        if key not in self.block_manager_info["blocks"][block_settings.name].keys():
            self.block_manager_info["blocks"][block_settings.name][key] = items
```
-/

/-- The `else` branch above: fold the newly parsed record into the existing
one, inserting a field only when its key is wholly absent. -/
def mergeBlockInfo (existing newRec : AList Val) : AList Val :=
  newRec.foldl
    (fun acc kv => if (alookup acc kv.1).isSome then acc else ainsert acc kv.1 kv.2)
    existing

/-- A stored field survives the additive merge untouched. -/
theorem mergeBlockInfo_preserves (existing newRec : AList Val) (k : String) (v : Val)
    (h : alookup existing k = some v) :
    alookup (mergeBlockInfo existing newRec) k = some v := by
  induction newRec generalizing existing with
  | nil => exact h
  | cons kv rest ih =>
    obtain ⟨nk, nv⟩ := kv
    simp only [mergeBlockInfo, List.foldl] at *
    by_cases hmem : (alookup existing nk).isSome
    · simp only [hmem, if_pos]
      exact ih existing h
    · simp only [hmem, Bool.false_eq_true, if_neg, not_false_iff]
      have hnone : alookup existing nk = none := by
        cases hx : alookup existing nk with
        | none => rfl
        | some w => rw [hx] at hmem; simp at hmem
      rw [ainsert_of_absent existing nk nv hnone]
      exact ih _ (alookup_append_left existing [(nk, nv)] k v h)

/-- A key wholly absent from the stored record is looked up in the newly
parsed record after the merge. -/
theorem mergeBlockInfo_absent (existing newRec : AList Val) (k : String)
    (h : alookup existing k = none) :
    alookup (mergeBlockInfo existing newRec) k = alookup newRec k := by
  induction newRec generalizing existing with
  | nil => simpa [mergeBlockInfo] using h
  | cons kv rest ih =>
    obtain ⟨nk, nv⟩ := kv
    simp only [mergeBlockInfo, List.foldl] at *
    by_cases hk : nk = k
    · subst hk
      simp only [h, Option.isSome_none, Bool.false_eq_true, if_neg, not_false_iff]
      rw [ainsert_of_absent existing nk nv h]
      have hlook : alookup (existing ++ [(nk, nv)]) nk = some nv := by
        rw [alookup_append_of_none existing [(nk, nv)] nk h]
        simp [alookup]
      have := mergeBlockInfo_preserves (existing ++ [(nk, nv)]) rest nk nv hlook
      simp only [mergeBlockInfo] at this
      rw [this]
      simp [alookup_cons]
    · by_cases hmem : (alookup existing nk).isSome
      · simp only [hmem, if_pos]
        rw [ih existing h]
        simp [alookup_cons, hk]
      · simp only [hmem, Bool.false_eq_true, if_neg, not_false_iff]
        have hnone : alookup existing nk = none := by
          cases hx : alookup existing nk with
          | none => rfl
          | some w => rw [hx] at hmem; simp at hmem
        rw [ainsert_of_absent existing nk nv hnone]
        have habs : alookup (existing ++ [(nk, nv)]) k = none := by
          rw [alookup_append_of_none existing [(nk, nv)] k h]
          simp [alookup, hk]
        rw [ih _ habs]
        simp [alookup_cons, hk]

/-! ## C10 — singleton construction (`SingletonMeta`, `BlockManager.__init__`)

`SingletonMeta.__call__` creates the instance under a lock on the first
construction only, and returns the stored instance (without re-running
`__init__`) on every later construction.  `__init__` applies the keyword
arguments via `setattr` and, unless `late_load` is set, loads
`block_infos.toml` (raising when it is missing) and overlays the three
persisted settings. -/

/-- The `BlockManager` attributes that construction touches, with the class
level defaults of `block_manager.py` lines 55-73. -/
structure ManagerAttrs where
  blocks_folder : String := "blocks"
  block_manager_folder : String := "blockmanager"
  allow_block_import_failure : Bool := false
  restart_on_install : Bool := true
  override_duplicate_block : Bool := false
  allow_installs : Bool := false
  verify_blocks : Bool := false
  deriving DecidableEq, Repr

/-- Keyword arguments accepted by `BlockManager(...)`; a `none` field means
the keyword was not passed. -/
structure ManagerKwargs where
  blocks_folder : Option String := none
  allow_block_import_failure : Option Bool := none
  allow_installs : Option Bool := none
  verify_blocks : Option Bool := none
  late_load : Bool := false
  deriving DecidableEq, Repr

/-- The `settings` table of a persisted `block_infos.toml` document, as read
back by `_load_settings_toml` (each key looked up with a default). -/
structure StoredSettings where
  allow_installs : Option Bool := none
  blocks_folder : Option String := none
  verify_blocks : Option Bool := none
  deriving DecidableEq, Repr

/-- `for key, value in kwargs.items(): setattr(self, key, value)` -/
def applyKwargs (m : ManagerAttrs) (k : ManagerKwargs) : ManagerAttrs :=
  { m with
    blocks_folder := k.blocks_folder.getD m.blocks_folder
    allow_block_import_failure := k.allow_block_import_failure.getD m.allow_block_import_failure
    allow_installs := k.allow_installs.getD m.allow_installs
    verify_blocks := k.verify_blocks.getD m.verify_blocks }

/-- `_load_settings_toml` (lines 606-622): raises when the file is missing,
otherwise overlays the persisted settings onto the attributes. -/
def loadSettingsOverlay (m : ManagerAttrs) (file : Option StoredSettings) :
    Except String ManagerAttrs :=
  match file with
  | none => .error "No block_infos.toml found. Please run setup first"
  | some st => .ok { m with
      allow_installs := st.allow_installs.getD false || m.allow_installs
      blocks_folder := st.blocks_folder.getD m.blocks_folder
      verify_blocks := st.verify_blocks.getD m.verify_blocks }

/-- `BlockManager.__init__`: apply keyword arguments, then (unless
`late_load`) load the persisted settings. -/
def managerInit (file : Option StoredSettings) (k : ManagerKwargs) :
    Except String ManagerAttrs :=
  let m := applyKwargs {} k
  if k.late_load then .ok m else loadSettingsOverlay m file

/-- `SingletonMeta.__call__`: `inst` is `cls._instances.get(cls)`.  The
instance is created (and recorded) only when absent; a failing `__init__`
records nothing; a later construction returns the stored instance without
looking at its arguments. -/
def managerNew (file : Option StoredSettings) (inst : Option ManagerAttrs)
    (k : ManagerKwargs) : Except String (ManagerAttrs × Option ManagerAttrs) :=
  match inst with
  | some m => .ok (m, some m)
  | none =>
    match managerInit file k with
    | .ok m => .ok (m, some m)
    | .error e => .error e

/-- C10.  Singleton construction discards later arguments: once a first
construction has succeeded and stored the instance, every subsequent
construction — with any settings file on disk and any keyword arguments —
returns that same instance with all attributes unchanged, and leaves the
stored instance untouched. -/
theorem singleton_discards_later_kwargs
    (file file₂ : Option StoredSettings) (k₁ k₂ : ManagerKwargs)
    (m₁ : ManagerAttrs) (st₁ : Option ManagerAttrs)
    (h : managerNew file none k₁ = .ok (m₁, st₁)) :
    managerNew file₂ st₁ k₂ = .ok (m₁, st₁) := by
  simp only [managerNew] at h
  cases hinit : managerInit file k₁ with
  | ok m =>
    rw [hinit] at h
    cases h
    rfl
  | error e =>
    rw [hinit] at h
    cases h

/-- C10 witness: a first construction with `verify_blocks := true` followed
by a second construction passing `verify_blocks := false` still yields the
first instance (with `verify_blocks` still `true`). -/
theorem singleton_discards_later_kwargs_witness :
    managerNew none (some { verify_blocks := true })
      { verify_blocks := some false, allow_installs := some true } =
      .ok ({ verify_blocks := true }, some { verify_blocks := true }) :=
  singleton_discards_later_kwargs none none
    { verify_blocks := some true, late_load := true }
    { verify_blocks := some false, allow_installs := some true }
    { verify_blocks := true } (some { verify_blocks := true }) (by decide)

/-! ## C9 / C4 — integrity verifier
(`_verify_block_hash` lines 315-337, `_save_block_hashes` lines 339-354,
`init_app` lines 144-154)

The persisted `block_hashes.json` file is modelled as
`Option (AList HVal)` (`none` = file absent).  `dirhash` is abstracted by
passing the recomputed digest of the block directory as an argument. -/

/-- A value stored in the hashes mapping: a digest string, or the empty
dict that `_verify_block_hash` writes into its in-memory copy for a
first-seen block. -/
inductive HVal where
  | hstr (s : String)
  | hdict
  deriving DecidableEq, Repr

/-- Reading `block_hashes.json`: missing file yields the empty mapping. -/
def loadHashes (file : Option (AList HVal)) : AList HVal := file.getD []

/-- `Path(block_path).name`: the last path segment. -/
def pathName (blockPath : List String) : String := blockPath.getLast?.getD ""

/-- `_verify_block_hash`: returns the verification verdict together with the
persisted file, which the function never writes (the
`hashes[block_name] = {}` assignment mutates only the in-memory copy). -/
def verify_block_hash (verifyFlag : Bool) (file : Option (AList HVal))
    (blockPath : List String) (dirDigest : String) : Bool × Option (AList HVal) :=
  if !verifyFlag then (true, file)
  else
    let hashes := loadHashes file
    let name := pathName blockPath
    match alookup hashes name with
    | none =>
      let _hashes := ainsert hashes name .hdict
      (true, file)
    | some stored => (stored == .hstr dirDigest, file)

/-- `_save_block_hashes`: load (or start empty), record the digest under the
block directory name, and write the file back. -/
def save_block_hashes (file : Option (AList HVal)) (blockPath : List String)
    (dirDigest : String) : Option (AList HVal) :=
  some (ainsert (loadHashes file) (pathName blockPath) (.hstr dirDigest))

/-- Repeated activations each re-run `_verify_block_hash` against whatever
file the previous activation left behind. -/
def iterateVerify (verifyFlag : Bool) (file : Option (AList HVal))
    (blockPath : List String) (dirDigest : String) : Nat → List Bool × Option (AList HVal)
  | 0 => ([], file)
  | n + 1 =>
    let step := verify_block_hash verifyFlag file blockPath dirDigest
    let rest := iterateVerify verifyFlag step.2 blockPath dirDigest n
    (step.1 :: rest.1, rest.2)

/-- C9.  Verification never records: any number of verifications leaves the
persisted hash file unchanged; a block with no recorded digest therefore
passes verification on every subsequent activation; and an explicit
`_save_block_hashes` call is what creates a digest. -/
theorem verify_never_records (verifyFlag : Bool) (file : Option (AList HVal))
    (blockPath : List String) (dirDigest : String) (n : Nat) :
    (iterateVerify verifyFlag file blockPath dirDigest n).2 = file ∧
    ((alookup (loadHashes file) (pathName blockPath)).isNone = true →
      ((iterateVerify verifyFlag file blockPath dirDigest n).1.all (fun b => b)) = true) ∧
    alookup (loadHashes (save_block_hashes file blockPath dirDigest))
      (pathName blockPath) = some (.hstr dirDigest) := by
  refine ⟨?_, ?_, ?_⟩
  · induction n with
    | zero => rfl
    | succ m ih =>
      simp only [iterateVerify]
      have hframe : (verify_block_hash verifyFlag file blockPath dirDigest).2 = file := by
        unfold verify_block_hash
        by_cases hv : verifyFlag
        · simp only [hv, Bool.not_true, Bool.false_eq_true, if_neg, not_false_iff]
          cases alookup (loadHashes file) (pathName blockPath) <;> rfl
        · simp [hv]
      rw [hframe]
      exact ih
  · intro habsent
    induction n with
    | zero => rfl
    | succ m ih =>
      have hnone : alookup (loadHashes file) (pathName blockPath) = none :=
        Option.not_isSome_iff_eq_none.mp (by simp_all)
      have hstep : verify_block_hash verifyFlag file blockPath dirDigest = (true, file) := by
        unfold verify_block_hash
        by_cases hv : verifyFlag
        · simp [hv, hnone]
        · simp [hv]
      simp only [iterateVerify, hstep]
      simpa using ih
  · unfold save_block_hashes
    simp only [loadHashes, Option.getD_some]
    exact alookup_ainsert_self _ _ _

/-- C9 witness: with verification enabled, a block with no recorded digest
(`file = none`) passes three consecutive activations and the file stays
absent; saving then records the digest. -/
theorem verify_never_records_witness :
    (iterateVerify true none ["blocks", "blog"] "d1f2" 3).2 = none ∧
    ((iterateVerify true none ["blocks", "blog"] "d1f2" 3).1.all (fun b => b)) = true ∧
    alookup (loadHashes (save_block_hashes none ["blocks", "blog"] "d1f2"))
      (pathName ["blocks", "blog"]) = some (.hstr "d1f2") :=
  ⟨(verify_never_records true none ["blocks", "blog"] "d1f2" 3).1,
   (verify_never_records true none ["blocks", "blog"] "d1f2" 3).2.1 (by decide),
   (verify_never_records true none ["blocks", "blog"] "d1f2" 3).2.2⟩

/-- What `init_app` does with one block before mounting it (lines 144-154):
with verification enabled, a failed hash check logs a warning and calls
`os._exit(0)`. -/
inductive ActivationStep where
  | exitProcess (code : Nat)
  | proceed
  deriving DecidableEq, Repr

/-- The verification gate at the top of the per-block loop of `init_app`. -/
def initAppVerifyGate (verifyFlag : Bool) (file : Option (AList HVal))
    (blockPath : List String) (dirDigest : String) : ActivationStep :=
  if verifyFlag then
    if (verify_block_hash verifyFlag file blockPath dirDigest).1 then .proceed
    else .exitProcess 0
  else .proceed

/-- C4.  On a hash mismatch (recorded digest `"aaaa"`, recomputed digest
`"bbbb"`) the activation gate refuses to activate the block and terminates
the process — but via `os._exit(0)`, i.e. with exit status zero, not the
non-zero outcome the specification requires. -/
theorem hash_mismatch_exits_with_zero :
    initAppVerifyGate true (some [("blog", .hstr "aaaa")]) ["blocks", "blog"] "bbbb" =
      .exitProcess 0 ∧
    ∀ code : Nat, initAppVerifyGate true (some [("blog", .hstr "aaaa")])
      ["blocks", "blog"] "bbbb" = .exitProcess code → code = 0 := by
  constructor
  · decide
  · intro code h
    have : ActivationStep.exitProcess 0 = .exitProcess code := by
      rw [← h]; decide
    cases this
    rfl

/-! ## Manifest model (`settings.py` — `BlockSettingsBase`)

Paths are plain strings with `/` as separator; `os.path` operations are
embedded below (`isabs`, `pjoin`, `relpath`).  A path is split into its
non-empty segments for the `relpath` computation, matching `os.path`'s
behaviour on normalised paths. -/

/-- `os.path.isabs`. -/
def isabs (p : String) : Bool := p.data.head? == some '/'

/-- `os.path.join a b` for one relative or absolute component. -/
def pjoin (a b : String) : String := if isabs b then b else a ++ "/" ++ b

/-- Split a character list at `'/'`. -/
def splitSlash : List Char → List Char → List String
  | [], acc => [String.mk acc.reverse]
  | c :: cs, acc =>
    if c = '/' then String.mk acc.reverse :: splitSlash cs []
    else splitSlash cs (c :: acc)

/-- The non-empty `/`-separated segments of a path. -/
def segs (p : String) : List String := (splitSlash p.data []).filter (fun s => s ≠ "")

/-- `os.path.relpath` on segment lists: drop the common prefix, then one
`..` per remaining base segment followed by the remaining path segments. -/
def relParts : List String → List String → List String
  | ps, [] => ps
  | [], bs => bs.map (fun _ => "..")
  | p :: ps, b :: bs =>
    if p = b then relParts ps bs
    else List.replicate (bs.length + 1) ".." ++ p :: ps

/-- `os.path.relpath path base`. -/
def relpath (p base : String) : String :=
  let r := relParts (segs p) (segs base)
  if r = [] then "." else String.intercalate "/" r

/-- Does the string end in `".py"`. -/
def endsPy (s : String) : Bool :=
  match s.data.reverse with
  | 'y' :: 'p' :: '.' :: _ => true
  | _ => false

/-- Drop the final `".py"`. -/
def dropPy (s : String) : String := String.mk (s.data.take (s.data.length - 3))

/-- `rel_path.replace(os.path.sep, '.')`. -/
def sepToDot (s : String) : String :=
  String.mk (s.data.map (fun c => if c = '/' then '.' else c))

/-- `BlockSettingsBase._path_to_module` (lines 74-99): empty path yields
`None`; a relative path is joined onto the project path; the result is made
relative to the project path, a trailing `.py` stripped, and separators
replaced with dots. -/
def path_to_module (project_path path : String) : Option String :=
  if path = "" then none
  else
    let fullPath := if isabs path then path else pjoin project_path path
    let rel := relpath fullPath project_path
    let rel2 := if endsPy rel then dropPy rel else rel
    some (sepToDot rel2)

/-- A raw manifest document (`block_config.toml`'s `block` section / a
serialized record fed back to the parser): each declared field either
absent or carrying a dynamic value. -/
structure RawManifest where
  name : Option Val := none
  version : Option Val := none
  block_path : Option Val := none
  requirements : Option Val := none
  dependancies : Option Val := none
  statics : Option Val := none
  template_router : Option Val := none
  templates_dir : Option Val := none
  api_router : Option Val := none
  extra_block_settings : Option Val := none
  load_order : Option Val := none
  module : Option Val := none
  deriving DecidableEq, Repr

/-- A validated `BlockSettingsBase` instance (after `__init__` has set
`module`). -/
structure BlockManifest where
  name : String
  version : Val
  block_path : String
  requirements : List String
  dependancies : List String
  statics : Option String
  template_router : Option String
  templates_dir : Option String
  api_router : Option String
  extra_block_settings : Option String
  load_order : Int
  module : Option String
  project_path : String
  deriving DecidableEq, Repr

/-- A required `str` field: present and a string.  No pattern, length or
emptiness constraint is declared anywhere in `settings.py`. -/
def reqStr : Option Val → Except String String
  | some (.vstr s) => .ok s
  | _ => .error "ValidationError"

/-- A required `float` field: present and not `None`. -/
def versionField : Option Val → Except String Val
  | none => .error "ValidationError"
  | some .vnone => .error "ValidationError"
  | some v => .ok v

/-- An `Optional[str] = None` field. -/
def optStrField : Option Val → Except String (Option String)
  | none => .ok none
  | some .vnone => .ok none
  | some (.vstr s) => .ok (some s)
  | some _ => .error "ValidationError"

/-- A `List[str] = []` field. -/
def strListField : Option Val → Except String (List String)
  | none => .ok []
  | some (.vstrs xs) => .ok xs
  | some _ => .error "ValidationError"

/-- An `int = 9` style field. -/
def intFieldD (d : Int) : Option Val → Except String Int
  | none => .ok d
  | some (.vint n) => .ok n
  | some _ => .error "ValidationError"

/-- `settings_class(**doc)` followed by `__init__`'s
`self.module = self._path_to_module(self.block_path)`: validate every
declared field, then overwrite `module` from `block_path` (a `module`
value supplied in the document is ignored). -/
def parseManifest (project_path : String) (doc : RawManifest) :
    Except String BlockManifest := do
  let name ← reqStr doc.name
  let version ← versionField doc.version
  let bp ← reqStr doc.block_path
  let reqs ← strListField doc.requirements
  let deps ← strListField doc.dependancies
  let st ← optStrField doc.statics
  let tr ← optStrField doc.template_router
  let td ← optStrField doc.templates_dir
  let ar ← optStrField doc.api_router
  let ebs ← optStrField doc.extra_block_settings
  let lo ← intFieldD 9 doc.load_order
  pure { name := name, version := version, block_path := bp,
         requirements := reqs, dependancies := deps, statics := st,
         template_router := tr, templates_dir := td, api_router := ar,
         extra_block_settings := ebs, load_order := lo,
         module := path_to_module project_path bp,
         project_path := project_path }

/-- `@field_serializer('statics', 'templates_dir')` — a truthy value is
joined onto the block path, a falsy one serializes to `None`. -/
def serPath (block_path : String) : Option String → Val
  | some s => if s = "" then .vnone else .vstr (pjoin block_path s)
  | none => .vnone

/-- `@field_serializer('template_router', 'api_router',
'extra_block_settings')` — a truthy value is joined onto the block path and
converted to dotted-module form. -/
def serModule (project_path block_path : String) : Option String → Val
  | some s =>
    if s = "" then .vnone
    else
      match path_to_module project_path (pjoin block_path s) with
      | some m => .vstr m
      | none => .vnone
  | none => .vnone

/-- `BlockSettingsBase.get_dict` (lines 50-57): `model_dump` excluding the
hook lists and `project_path`, with the two field serializers applied. -/
def get_dict (m : BlockManifest) : RawManifest :=
  { name := some (.vstr m.name)
    version := some m.version
    block_path := some (.vstr m.block_path)
    requirements := some (.vstrs m.requirements)
    dependancies := some (.vstrs m.dependancies)
    statics := some (serPath m.block_path m.statics)
    template_router := some (serModule m.project_path m.block_path m.template_router)
    templates_dir := some (serPath m.block_path m.templates_dir)
    api_router := some (serModule m.project_path m.block_path m.api_router)
    extra_block_settings := some (serModule m.project_path m.block_path m.extra_block_settings)
    load_order := some (.vint m.load_order)
    module := some (match m.module with | some s => .vstr s | none => .vnone) }

/-- Parse a document and serialize the result (one resolution cycle);
`none` when validation fails. -/
def dumpAfterParse (project_path : String) (doc : RawManifest) : Option RawManifest :=
  match parseManifest project_path doc with
  | .ok m => some (get_dict m)
  | .error _ => none

/-- The name pattern the specification describes: alphanumeric plus
underscore, 3-32 characters.  (Stated from the spec for comparison; the
source declares `name : str` with no constraint.) -/
def specNameValid (s : String) : Bool :=
  decide (3 ≤ s.data.length) && decide (s.data.length ≤ 32) &&
    s.data.all (fun c => c.isAlphanum || c = '_')

/-! ## C7 — name validation -/

/-- A manifest whose `name` violates the spec's pattern (not alphanumeric,
shorter than 3 characters). -/
def badNameDoc : RawManifest :=
  { name := some (.vstr "x!"), version := some (.vstr "0.1"),
    block_path := some (.vstr "/proj/blocks/xb") }

/-- C7 counterexample.  The source declares `name : str` with no pattern or
length constraint: a document whose name `"x!"` violates the spec's
alphanumeric-plus-underscore 3-32 pattern is accepted into a
`BlockManifest` rather than rejected. -/
theorem name_pattern_not_enforced :
    (parseManifest "/proj" badNameDoc).map (fun m => m.name) = .ok "x!" ∧
      specNameValid "x!" = false := by decide

/-- C7 amended.  Parsing validates only that `name` is present and a
string: replacing the name of any successfully parsed document by an
arbitrary string (pattern-violating or not) still parses, to the same
record with only the name changed. -/
theorem parse_accepts_any_name (project_path : String) (doc : RawManifest)
    (s₂ : String) (m₁ : BlockManifest)
    (h : parseManifest project_path doc = .ok m₁) :
    parseManifest project_path { doc with name := some (.vstr s₂) } =
      .ok { m₁ with name := s₂ } := by
  simp only [parseManifest, Bind.bind, Except.bind] at h ⊢
  cases h1 : reqStr doc.name <;> rw [h1] at h
  case error => cases h
  case ok name =>
  cases h2 : versionField doc.version <;> rw [h2] at h <;> [cases h; skip]
  cases h3 : reqStr doc.block_path <;> rw [h3] at h <;> [cases h; skip]
  cases h4 : strListField doc.requirements <;> rw [h4] at h <;> [cases h; skip]
  cases h5 : strListField doc.dependancies <;> rw [h5] at h <;> [cases h; skip]
  cases h6 : optStrField doc.statics <;> rw [h6] at h <;> [cases h; skip]
  cases h7 : optStrField doc.template_router <;> rw [h7] at h <;> [cases h; skip]
  cases h8 : optStrField doc.templates_dir <;> rw [h8] at h <;> [cases h; skip]
  cases h9 : optStrField doc.api_router <;> rw [h9] at h <;> [cases h; skip]
  cases h10 : optStrField doc.extra_block_settings <;> rw [h10] at h <;> [cases h; skip]
  cases h11 : intFieldD 9 doc.load_order <;> rw [h11] at h <;> [cases h; skip]
  simp only [pure, Except.pure, Except.ok.injEq] at h
  subst h
  rfl

/-- C7 amended witness: the pattern-violating name `"x!"` substituted into
an otherwise-valid document is accepted. -/
theorem parse_accepts_any_name_witness :
    parseManifest "/proj" { badNameDoc with name := some (.vstr "x!") } =
      .ok { name := "x!", version := .vstr "0.1", block_path := "/proj/blocks/xb",
            requirements := [], dependancies := [], statics := none,
            template_router := none, templates_dir := none, api_router := none,
            extra_block_settings := none, load_order := 9,
            module := some "blocks.xb", project_path := "/proj" } :=
  parse_accepts_any_name "/proj" badNameDoc "x!"
    { name := "x!", version := .vstr "0.1", block_path := "/proj/blocks/xb",
      requirements := [], dependancies := [], statics := none,
      template_router := none, templates_dir := none, api_router := none,
      extra_block_settings := none, load_order := 9,
      module := some "blocks.xb", project_path := "/proj" } (by decide)

/-! ## C8 — manifest round-trip -/

theorem isabs_ne_empty (p : String) (h : isabs p = true) : p ≠ "" := by
  intro he
  subst he
  simp [isabs] at h

theorem isabs_pjoin (a b : String) (h : isabs a = true) :
    isabs (pjoin a b) = true := by
  unfold pjoin
  by_cases hb : isabs b
  · simp [hb]
  · simp only [hb, Bool.false_eq_true, if_neg, not_false_iff]
    unfold isabs at h ⊢
    rw [String.data_append, String.data_append]
    cases hd : a.data with
    | nil => rw [hd] at h; simp at h
    | cons c t =>
      rw [hd] at h
      simp only [List.head?] at h
      have hc : c = '/' := by
        have := eq_of_beq h
        exact (Option.some.injEq _ _).mp this
      subst hc
      simp [List.head?]

theorem pjoin_of_abs (a b : String) (h : isabs b = true) : pjoin a b = b := by
  simp [pjoin, h]

theorem pjoin_idem (a b : String) (h : isabs a = true) :
    pjoin a (pjoin a b) = pjoin a b :=
  pjoin_of_abs a (pjoin a b) (isabs_pjoin a b h)

theorem versionField_ok_ne_vnone (v : Option Val) (w : Val)
    (h : versionField v = .ok w) : w ≠ .vnone := by
  cases v with
  | none => cases h
  | some u =>
    cases u with
    | vnone => cases h
    | vstr s => cases h; intro hc; cases hc
    | vint n => cases h; intro hc; cases hc
    | vbool b => cases h; intro hc; cases hc
    | vstrs xs => cases h; intro hc; cases hc

theorem versionField_some_of_ne (v : Val) (h : v ≠ .vnone) :
    versionField (some v) = .ok v := by
  cases v <;> first | rfl | exact absurd rfl h

/-- What re-parsing a serialized `statics` / `templates_dir` value yields. -/
def serBack (block_path : String) : Option String → Option String
  | none => none
  | some s => if s = "" then none else some (pjoin block_path s)

theorem optStrField_serPath (bp : String) (st : Option String) :
    optStrField (some (serPath bp st)) = .ok (serBack bp st) := by
  cases st with
  | none => rfl
  | some s =>
    by_cases hs : s = "" <;> simp [serPath, serBack, hs, optStrField]

theorem serModule_falsy (pp bp : String) (v : Option String)
    (h : v = none ∨ v = some "") : serModule pp bp v = .vnone := by
  rcases h with h | h <;> subst h <;> simp [serModule]

theorem serPath_serBack (bp : String) (st : Option String)
    (habs : isabs bp = true) :
    serPath bp (serBack bp st) = serPath bp st := by
  cases st with
  | none => rfl
  | some s =>
    by_cases hs : s = ""
    · simp [serBack, serPath, hs]
    · have hne : pjoin bp s ≠ "" := isabs_ne_empty _ (isabs_pjoin bp s habs)
      simp [serBack, serPath, hs, hne, pjoin_idem bp s habs]

/-- Inversion of a successful parse: the record's `project_path` is the
parser's, `module` is recomputed from `block_path`, and `version` is never
`None`. -/
theorem parseManifest_inv (project_path : String) (doc : RawManifest)
    (m : BlockManifest) (h : parseManifest project_path doc = .ok m) :
    m.project_path = project_path ∧
      m.module = path_to_module project_path m.block_path ∧
      m.version ≠ .vnone := by
  simp only [parseManifest, Bind.bind, Except.bind] at h
  cases h1 : reqStr doc.name <;> rw [h1] at h
  case error => cases h
  case ok name =>
  cases h2 : versionField doc.version <;> rw [h2] at h <;> [cases h; skip]
  cases h3 : reqStr doc.block_path <;> rw [h3] at h <;> [cases h; skip]
  cases h4 : strListField doc.requirements <;> rw [h4] at h <;> [cases h; skip]
  cases h5 : strListField doc.dependancies <;> rw [h5] at h <;> [cases h; skip]
  cases h6 : optStrField doc.statics <;> rw [h6] at h <;> [cases h; skip]
  cases h7 : optStrField doc.template_router <;> rw [h7] at h <;> [cases h; skip]
  cases h8 : optStrField doc.templates_dir <;> rw [h8] at h <;> [cases h; skip]
  cases h9 : optStrField doc.api_router <;> rw [h9] at h <;> [cases h; skip]
  cases h10 : optStrField doc.extra_block_settings <;> rw [h10] at h <;> [cases h; skip]
  cases h11 : intFieldD 9 doc.load_order <;> rw [h11] at h <;> [cases h; skip]
  simp only [pure, Except.pure, Except.ok.injEq] at h
  subst h
  exact ⟨rfl, rfl, versionField_ok_ne_vnone _ _ h2⟩

/-- The record obtained by re-parsing a serialized manifest. -/
def reparsed (project_path : String) (m : BlockManifest) : BlockManifest :=
  { name := m.name, version := m.version, block_path := m.block_path,
    requirements := m.requirements, dependancies := m.dependancies,
    statics := serBack m.block_path m.statics,
    template_router := none,
    templates_dir := serBack m.block_path m.templates_dir,
    api_router := none, extra_block_settings := none,
    load_order := m.load_order,
    module := path_to_module project_path m.block_path,
    project_path := project_path }

/-- C8 amended.  For a validly parsed manifest whose block path is absolute
and whose module-reference fields (`template_router`, `api_router`,
`extra_block_settings`) are falsy, `parse` then `get_dict` then re-`parse`
succeeds and yields a record that serializes identically — the path fields
(`statics`, `templates_dir`), `module`, and all scalar fields are stable
under one extra resolution cycle.  (The module-reference fields are *not*
stable in general — see the counterexample.) -/
theorem manifest_roundtrip_stable (project_path : String) (doc : RawManifest)
    (m : BlockManifest)
    (hparse : parseManifest project_path doc = .ok m)
    (habs : isabs m.block_path = true)
    (htr : m.template_router = none ∨ m.template_router = some "")
    (har : m.api_router = none ∨ m.api_router = some "")
    (hebs : m.extra_block_settings = none ∨ m.extra_block_settings = some "") :
    parseManifest project_path (get_dict m) = .ok (reparsed project_path m) ∧
      get_dict (reparsed project_path m) = get_dict m := by
  obtain ⟨hpp, hmod, hver⟩ := parseManifest_inv project_path doc m hparse
  constructor
  · simp only [parseManifest, get_dict, Bind.bind, Except.bind,
      versionField_some_of_ne m.version hver, optStrField_serPath,
      serModule_falsy _ _ _ htr, serModule_falsy _ _ _ har,
      serModule_falsy _ _ _ hebs]
    rfl
  · simp only [get_dict, reparsed, serPath_serBack _ _ habs,
      serModule_falsy project_path m.block_path none (Or.inl rfl),
      serModule_falsy _ _ _ htr, serModule_falsy _ _ _ har,
      serModule_falsy _ _ _ hebs, hpp, hmod]

/-- A manifest document with statics and a shared templates directory but
no router fields. -/
def staticsDoc : RawManifest :=
  { name := some (.vstr "blog"), version := some (.vstr "0.1"),
    block_path := some (.vstr "/proj/blocks/blog"),
    requirements := some (.vstrs ["jinja2"]),
    statics := some (.vstr "static"),
    templates_dir := some (.vstr "templates") }

/-- The parsed form of `staticsDoc`. -/
def staticsManifest : BlockManifest :=
  { name := "blog", version := .vstr "0.1",
    block_path := "/proj/blocks/blog", requirements := ["jinja2"],
    dependancies := [], statics := some "static",
    template_router := none, templates_dir := some "templates",
    api_router := none, extra_block_settings := none, load_order := 9,
    module := some "blocks.blog", project_path := "/proj" }

/-- C8 amended witness: a manifest with statics and a shared templates
directory (but no router fields) round-trips to an identical serialized
record. -/
theorem manifest_roundtrip_stable_witness :
    parseManifest "/proj" (get_dict staticsManifest) =
        .ok (reparsed "/proj" staticsManifest) ∧
      get_dict (reparsed "/proj" staticsManifest) = get_dict staticsManifest :=
  manifest_roundtrip_stable "/proj" staticsDoc staticsManifest
    (by decide) (by decide) (Or.inl rfl) (Or.inl rfl) (Or.inl rfl)

/-- A valid manifest document declaring a template router. -/
def routerDoc : RawManifest :=
  { name := some (.vstr "blog"), version := some (.vstr "0.1"),
    block_path := some (.vstr "/proj/blocks/blog"),
    template_router := some (.vstr "router.py") }

/-- C8 counterexample.  One extra resolution cycle is *not* the identity on
serialized records: the `template_router` of `routerDoc` first resolves to
`"blocks.blog.router"`, but re-parsing the serialized record and
serializing again re-resolves that dotted module reference as if it were a
relative path, producing `"blocks.blog.blocks.blog.router"`. -/
theorem manifest_roundtrip_counterexample :
    (dumpAfterParse "/proj" routerDoc).isSome = true ∧
    (dumpAfterParse "/proj" routerDoc).bind (dumpAfterParse "/proj") ≠
      dumpAfterParse "/proj" routerDoc ∧
    (dumpAfterParse "/proj" routerDoc).map (fun d => d.template_router) =
      some (some (.vstr "blocks.blog.router")) ∧
    ((dumpAfterParse "/proj" routerDoc).bind (dumpAfterParse "/proj")).map
        (fun d => d.template_router) =
      some (some (.vstr "blocks.blog.blocks.blog.router")) := by decide

/-! ## C5 — forward-compatible load (`BlockManager._setup`, lines 233-253)

```python
if not self.block_manager_info:
    if "blocks" not in self.block_manager_info.keys():
        self.block_manager_info["blocks"] = {}
    ...
```
A persisted registry document is modelled with one `Option` per top-level
collection (`none` = key absent).  Python's `not dict` is true exactly when
the dict has no keys, i.e. when every collection is absent. -/

/-- A persisted `block_infos.toml` document as loaded back; `none` marks an
absent top-level key. -/
structure RawInfoDoc where
  blocks : Option (AList (AList Val)) := none
  installs : Option (List Val) := none
  extra_block_settings : Option (List Val) := none
  templates_dir : Option (List Val) := none
  statics : Option (List Val) := none
  hooks : Option (AList (AList (List String))) := none
  settings : Option (AList Val) := none
  deriving DecidableEq, Repr

/-- `not self.block_manager_info`: the document has no keys at all. -/
def docIsEmpty (d : RawInfoDoc) : Bool :=
  d.blocks.isNone && d.installs.isNone && d.extra_block_settings.isNone &&
    d.templates_dir.isNone && d.statics.isNone && d.hooks.isNone &&
    d.settings.isNone

/-- The empty hooks table `_setup` installs. -/
def emptyHooksTable : AList (AList (List String)) :=
  [("_start_hooks", []), ("_block_preload_hooks", []), ("_block_postload_hooks", [])]

/-- Lines 233-253 of `_setup`: the per-key initializations run only inside
the `if not self.block_manager_info:` branch. -/
def setupInitCollections (d : RawInfoDoc) : RawInfoDoc :=
  if docIsEmpty d then
    let d1 := if d.blocks.isNone then { d with blocks := some [] } else d
    let d2 := if d1.installs.isNone then { d1 with installs := some [] } else d1
    let d3 := if d2.extra_block_settings.isNone then
      { d2 with extra_block_settings := some [] } else d2
    let d4 := if d3.templates_dir.isNone then { d3 with templates_dir := some [] } else d3
    let d5 := if d4.statics.isNone then { d4 with statics := some [] } else d4
    let d6 := if d5.hooks.isNone then { d5 with hooks := some emptyHooksTable } else d5
    if d6.settings.isNone then { d6 with settings := some [] } else d6
  else d

/-- A wholly empty document (no persisted keys at all). -/
def emptyRawDoc : RawInfoDoc := {}

/-- A legacy partial document: it has a `blocks` table but none of the
other collections. -/
def partialRawDoc : RawInfoDoc := { blocks := some [("blog", [])] }

/-- The fully initialized document. -/
def initializedRawDoc : RawInfoDoc :=
  { blocks := some [], installs := some [], extra_block_settings := some [],
    templates_dir := some [], statics := some [], hooks := some emptyHooksTable,
    settings := some [] }

/-- C5 counterexample.  A legacy document that contains `blocks` but lacks
every other collection is *not* patched: after the initialization step of
`_setup`, `installs` (and the rest) are still absent, because the per-key
initializations are guarded by `if not self.block_manager_info:`, which is
false for any non-empty document.  Only the wholly empty document is
initialized. -/
theorem legacy_doc_not_patched :
    setupInitCollections partialRawDoc = partialRawDoc ∧
    (setupInitCollections partialRawDoc).installs = none ∧
    (setupInitCollections partialRawDoc).settings = none ∧
    setupInitCollections emptyRawDoc = initializedRawDoc := by decide

/-- C5 amended.  The collections are initialized to their empty forms only
when the loaded document is entirely empty; a partial legacy document is
returned untouched, its missing collections still absent. -/
theorem setup_initializes_only_empty_doc (d : RawInfoDoc) :
    (docIsEmpty d = true → setupInitCollections d = initializedRawDoc) ∧
      (docIsEmpty d = false → setupInitCollections d = d) := by
  constructor
  · intro h
    obtain ⟨b, i, e, t, st, hk, se⟩ := d
    simp only [docIsEmpty, Bool.and_eq_true, Option.isNone_iff_eq_none] at h
    obtain ⟨⟨⟨⟨⟨⟨hb, hi⟩, he⟩, ht⟩, hst⟩, hhk⟩, hse⟩ := h
    subst hb hi he ht hst hhk hse
    rfl
  · intro h
    simp [setupInitCollections, h]

/-- C5 amended witness: the empty document is initialized in full; the
partial legacy document is returned untouched. -/
theorem setup_initializes_only_empty_doc_witness :
    setupInitCollections emptyRawDoc = initializedRawDoc ∧
      setupInitCollections partialRawDoc = partialRawDoc :=
  ⟨(setup_initializes_only_empty_doc emptyRawDoc).1 (by decide),
   (setup_initializes_only_empty_doc partialRawDoc).2 (by decide)⟩

/-! ## Registry state and the setup pipeline
(`BlockManager._setup`, `_setup_blocks`, `_load_block_config`,
`_build_block_settings_class`, `_setup_hooks`, `_attach_hook`,
`_save_settings_toml`)

The in-memory `block_manager_info` of a manager whose document has been
initialized (every top-level key present, cf. C5) is a `RegistryState`.
The blocks folder is modelled as `Option (List BlockSrc)`: `none` when the
folder does not exist, otherwise the discovered block directories in
iteration order, each already read from its `block_config.toml`.
`importlib.import_module` on an extra-settings module reference is
abstracted by an environment `ExtEnv`; `pip install` is assumed to
succeed when attempted (its failure path is out of scope here). -/

/-- The in-memory registry (`block_manager_info` with all keys present). -/
structure RegistryState where
  blocks : AList (AList Val)
  installs : List String
  extra_block_settings : List Val
  templates_dir : List Val
  statics : List Val
  hooks : AList (AList (List String))
  settings : AList Val
  deriving DecidableEq, Repr

/-- What an extra-settings module contributes to the composite settings
class: extra declared fields (with their serialized defaults) and, per the
spec's mixin-chain contract, hook callables for the four lifecycle phases,
each identified by `(module name, function name)` as `_attach_hook`
derives them. -/
structure ExtDef where
  fields : AList Val
  setup_hooks : List (String × String) := []
  start_hooks : List (String × String) := []
  preload_hooks : List (String × String) := []
  postload_hooks : List (String × String) := []
  deriving DecidableEq, Repr

/-- Outcome of importing an extra-settings module reference. -/
inductive ImportResult where
  | missing
  | noSettings
  | ext (e : ExtDef)
  deriving DecidableEq, Repr

/-- The process's importable modules. -/
abbrev ExtEnv : Type := String → ImportResult

/-- The manager flags `_setup` reads. -/
structure SetupConfig where
  allow_block_import_failure : Bool := false
  allow_installs : Bool := false
  blocks_folder : String := "blocks"
  verify_blocks : Bool := false
  deriving DecidableEq, Repr

/-- One entry of `_build_block_settings_class`'s loop: import the module
reference (a non-string entry — e.g. a persisted `None` — raises
`TypeError`, a missing module raises `ImportError`, neither is caught);
a module without a suitable `Settings` class is skipped. -/
def importExtra (env : ExtEnv) : Val → Except String (Option ExtDef)
  | .vstr s =>
    match env s with
    | .missing => .error "ImportError"
    | .noSettings => .ok none
    | .ext e => .ok (some e)
  | _ => .error "TypeError"

/-- `_build_block_settings_class` (lines 199-218): build the composite
settings class from the registry's `extra_block_settings` list. -/
def buildSettingsClass (env : ExtEnv) (extras : List Val) :
    Except String (List ExtDef) :=
  match extras.mapM (importExtra env) with
  | .ok found => .ok found.reduceOption
  | .error e => .error e

/-- One block directory as discovered under the blocks folder: its parsed
`block_config.toml` fields.  `extraVal` and `templatesVal` are the
serialized `extra_block_settings` / `templates_dir` entries of the dump
(`Val.vnone` when the manifest leaves them unset), `otherFields` the
remaining `model_dump` entries (`version`, `block_path`, `module`,
`statics`, `load_order`, ...). -/
structure BlockSrc where
  name : String
  requirements : List String
  dependancies : List String
  extraVal : Val
  templatesVal : Val
  otherFields : AList Val
  deriving DecidableEq, Repr

/-- The `get_dict` dump of a block parsed with the plain base class (no
extensions active). -/
def baseDict (b : BlockSrc) : AList Val :=
  ("name", Val.vstr b.name) :: ("requirements", Val.vstrs b.requirements) ::
    ("dependancies", Val.vstrs b.dependancies) ::
    ("templates_dir", b.templatesVal) :: ("extra_block_settings", b.extraVal) ::
    b.otherFields

/-- The dump of a block parsed with the composite class: a field declared
by an active extension takes its default unless the manifest already
provides the key — key-wise this is insert-if-absent, the same operation
as the registry's additive merge. -/
def parseDict (exts : List ExtDef) (b : BlockSrc) : AList Val :=
  exts.foldl (fun acc e => mergeBlockInfo acc e.fields) (baseDict b)

/-- Modelled from the spec: the four lifecycle hook accessor methods
(`_setup_hooks`, `_start_hooks`, `_preload_hooks`, `_postload_hooks`) of
`BlockSettingsBase` / `BlockSettingsMixin` are invoked by
`BlockManager._setup_hooks` (lines 454-457) and overridden by the default
blocks' `Settings` classes (`return super()._start_hooks() + [...]`), but
their base definitions are missing from the source tree.  Per the spec
each accessor defaults to the empty list and every override appends to its
superclass's result, so on the composite class
`DynamicBlockSettings(*extensions, BlockSettingsBase)` the chain yields
the concatenation of the extensions' contributions, innermost first. -/
def chainHooks (select : ExtDef → List (String × String))
    (exts : List ExtDef) : List (String × String) :=
  exts.reverse.foldl (fun acc e => acc ++ select e) []

/-- `_attach_hook`'s body for one callable (lines 525-538): ensure the
group table and the module list exist, then append the function name if it
is not yet recorded.  Python mutates the nested dicts in place; the net
effect of the consecutive writes to the same keys is written here as a
single assignment per level (an absent group gains `{module: [fn]}`, an
absent module gains `[fn]`), and when nothing is missing and the function
is already recorded, nothing is written at all. -/
def attachOne (h : AList (AList (List String))) (group modName fnName : String) :
    AList (AList (List String)) × Bool :=
  match alookup h group with
  | none => (ainsert h group [(modName, [fnName])], true)
  | some gd =>
    match alookup gd modName with
    | none => (ainsert h group (ainsert gd modName [fnName]), true)
    | some fns =>
      if fnName ∈ fns then (h, false)
      else (ainsert h group (ainsert gd modName (fns ++ [fnName])), true)

/-- `_attach_hook` (lines 511-539): attach each discovered callable of a
group, reporting whether any new entry was added. -/
def attachHook (h : AList (AList (List String))) (group : String)
    (pairs : List (String × String)) : AList (AList (List String)) × Bool :=
  pairs.foldl
    (fun acc p =>
      let r := attachOne acc.1 group p.1 p.2
      (r.1, acc.2 || r.2))
    (h, false)

/-- The `if block_settings.name not in ... else ...` insert-or-merge of
`_load_block_config` (lines 382-388). -/
def registerBlock (blocks : AList (AList Val)) (name : String)
    (dict : AList Val) : AList (AList Val) :=
  match alookup blocks name with
  | none => ainsert blocks name dict
  | some stored => ainsert blocks name (mergeBlockInfo stored dict)

/-- Lines 391-393: register a newly seen `extra_block_settings` value
(which may be the serialized `None`) and require a restart for it. -/
def registerExtraSettings (extras : List Val) (dict : AList Val) :
    List Val × Bool :=
  match alookup dict "extra_block_settings" with
  | none => (extras, false)
  | some v =>
    if v ∈ extras then (extras, false) else (extras ++ [v], true)

/-- Lines 400-414: walk the requirements, recording (and, when installs
are allowed, installing — assumed to succeed) each one absent from the
global install list; any new requirement requires a restart. -/
def installRequirements (installs : List String) (reqs : List String) :
    List String × Bool :=
  reqs.foldl
    (fun acc r => if r ∈ acc.1 then acc else (acc.1 ++ [r], true))
    (installs, false)

/-- Lines 396-414: the requirements stage.  Python's `or` short-circuits:
the stored record is consulted only when `block_settings.requirements` is
falsy, and a record without a `requirements` key then raises `KeyError`. -/
def installStage (blocks : AList (AList Val)) (installs : List String)
    (b : BlockSrc) : Except String (List String × Bool) :=
  if b.requirements ≠ [] then .ok (installRequirements installs b.requirements)
  else
    match alookup blocks b.name with
    | none => .error "KeyError"
    | some stored =>
      match alookup stored "requirements" with
      | none => .error "KeyError"
      | some v =>
        if v ≠ Val.vstrs b.requirements then
          .ok (installRequirements installs b.requirements)
        else .ok (installs, false)

/-- Lines 417-419: register a newly seen `templates_dir` value and require
a restart for it. -/
def templatesStage (tdirs : List Val) (dict : AList Val) : List Val × Bool :=
  match alookup dict "templates_dir" with
  | none => (tdirs, false)
  | some v =>
    if v ∈ tdirs then (tdirs, false) else (tdirs ++ [v], true)

/-- `_load_block_config` (lines 356-421): parse the block with the
composite class, fail on a dependency absent from the registry, insert or
additively merge the record, then run the extra-settings, requirements and
templates stages (which touch disjoint registry fields). -/
def loadBlockConfig (exts : List ExtDef) (s : RegistryState) (b : BlockSrc) :
    Except String (RegistryState × Bool) :=
  let dict := parseDict exts b
  if b.dependancies.any (fun d => (alookup s.blocks d).isNone) then
    .error "Missing dependancy"
  else
    let blocks1 := registerBlock s.blocks b.name dict
    let er := registerExtraSettings s.extra_block_settings dict
    match installStage blocks1 s.installs b with
    | .error e => .error e
    | .ok ir =>
      let tr := templatesStage s.templates_dir dict
      .ok ({ s with
              blocks := blocks1, extra_block_settings := er.1,
              installs := ir.1, templates_dir := tr.1 },
           er.2 || ir.2 || tr.2)

/-- One iteration of the `_setup_blocks` loop: a per-block failure is
swallowed exactly when `allow_block_import_failure` is set. -/
def blocksStep (exts : List ExtDef) (cfg : SetupConfig)
    (acc : RegistryState × Bool) (b : BlockSrc) :
    Except String (RegistryState × Bool) :=
  match loadBlockConfig exts acc.1 b with
  | .ok res => .ok (res.1, acc.2 || res.2)
  | .error e =>
    if cfg.allow_block_import_failure then .ok acc else .error e

/-- `_setup_blocks` (lines 265-298): build the composite class from the
current extras, fail when the blocks folder is missing, then fold
`_load_block_config` over the discovered blocks. -/
def setupBlocks (env : ExtEnv) (cfg : SetupConfig)
    (fsOpt : Option (List BlockSrc)) (s : RegistryState) :
    Except String (RegistryState × Bool) :=
  match buildSettingsClass env s.extra_block_settings with
  | .error e => .error e
  | .ok exts =>
    match fsOpt with
    | none => .error "No blocks folder found"
    | some fs => fs.foldlM (blocksStep exts cfg) (s, false)

/-- One iteration of the `_setup_hooks` loop: read the four lifecycle
accessors of the composite class (class-level, hence identical for every
block) and attach each group. -/
def hooksStep (exts : List ExtDef) (acc : AList (AList (List String)) × Bool)
    (_b : BlockSrc) : AList (AList (List String)) × Bool :=
  let g1 := attachHook acc.1 "_setup_hooks" (chainHooks ExtDef.setup_hooks exts)
  let g2 := attachHook g1.1 "_start_hooks" (chainHooks ExtDef.start_hooks exts)
  let g3 := attachHook g2.1 "_block_preload_hooks" (chainHooks ExtDef.preload_hooks exts)
  let g4 := attachHook g3.1 "_block_postload_hooks" (chainHooks ExtDef.postload_hooks exts)
  (g4.1, acc.2 || g1.2 || g2.2 || g3.2 || g4.2)

/-- `_setup_hooks` (lines 424-471): rebuild the composite class, fail when
the blocks folder is missing, then attach the discovered hooks for every
block. -/
def setupHooksPhase (env : ExtEnv) (_cfg : SetupConfig)
    (fsOpt : Option (List BlockSrc)) (s : RegistryState) :
    Except String (RegistryState × Bool) :=
  match buildSettingsClass env s.extra_block_settings with
  | .error e => .error e
  | .ok exts =>
    match fsOpt with
    | none => .error "No blocks folder found"
    | some fs =>
      let res := fs.foldl (hooksStep exts) (s.hooks, false)
      .ok ({ s with hooks := res.1 }, res.2)

/-- The three `settings` assignments of `_save_settings_toml`. -/
def writeSettingsTable (cfg : SetupConfig) (t : AList Val) : AList Val :=
  ainsert
    (ainsert (ainsert t "allow_installs" (.vbool cfg.allow_installs))
      "blocks_folder" (.vstr cfg.blocks_folder))
    "verify_blocks" (.vbool cfg.verify_blocks)

/-- Does a table hold a `None` value (TOML has no null; `tomli_w.dump`
raises `TypeError` on one). -/
def tableHasNone (t : AList Val) : Bool :=
  t.any (fun kv => kv.2 == Val.vnone)

/-- Does the registry document hold a `None` value anywhere `tomli_w`
would serialize one: inside a block record, or in the
`extra_block_settings` / `templates_dir` / `statics` lists, or in the
`settings` table.  (`installs` and the hooks table hold only strings.) -/
def stateHasNone (s : RegistryState) : Bool :=
  s.blocks.any (fun kv => tableHasNone kv.2) ||
    s.extra_block_settings.any (fun v => v == Val.vnone) ||
    s.templates_dir.any (fun v => v == Val.vnone) ||
    s.statics.any (fun v => v == Val.vnone) ||
    tableHasNone s.settings

/-- `_save_settings_toml` (lines 624-641): write the three manager flags
into the `settings` table, then persist the document wholesale with
`tomli_w.dump`, which raises `TypeError` when the document carries a
`None` value anywhere (TOML cannot represent null), aborting the run. -/
def saveSettingsToml (cfg : SetupConfig) (s : RegistryState) :
    Except String RegistryState :=
  if stateHasNone { s with settings := writeSettingsTable cfg s.settings } then
    .error "TypeError"
  else .ok { s with settings := writeSettingsTable cfg s.settings }

/-- `_setup` (lines 220-263) on an initialized registry: discover blocks,
discover hooks, persist, and report whether anything requires a restart.
(`_run_hooks(self._hooks_setup)` runs an attribute list that `_setup`
never populates, a no-op here.) -/
def runSetup (env : ExtEnv) (cfg : SetupConfig)
    (fsOpt : Option (List BlockSrc)) (s : RegistryState) :
    Except String (RegistryState × Bool) :=
  match setupBlocks env cfg fsOpt s with
  | .error e => .error e
  | .ok bres =>
    match setupHooksPhase env cfg fsOpt bres.1 with
    | .error e => .error e
    | .ok hres =>
      match saveSettingsToml cfg hres.1 with
      | .error e => .error e
      | .ok s2 => .ok (s2, hres.2 || bres.2)

/-- The registry produced by initializing the empty document (cf. C5). -/
def emptyRegistryState : RegistryState :=
  { blocks := [], installs := [], extra_block_settings := [],
    templates_dir := [], statics := [], hooks := emptyHooksTable,
    settings := [] }

/-! ## C1 — additive-only merge at the `_load_block_config` level -/

/-- C1.  Additive-only merge: when a block's name is already present in the
registry, a later `_load_block_config` call stores the additive merge of
the existing record with the newly parsed record; every field already
stored keeps its value, and a key wholly absent from the existing record
is inserted with the newly parsed value. -/
theorem load_block_config_additive (exts : List ExtDef) (s : RegistryState)
    (b : BlockSrc) (s2 : RegistryState) (r : Bool) (stored : AList Val)
    (k : String) (v : Val)
    (hstored : alookup s.blocks b.name = some stored)
    (hk : alookup stored k = some v)
    (hok : loadBlockConfig exts s b = .ok (s2, r)) :
    alookup s2.blocks b.name =
        some (mergeBlockInfo stored (parseDict exts b)) ∧
      alookup (mergeBlockInfo stored (parseDict exts b)) k = some v ∧
      (∀ k2, alookup stored k2 = none →
        alookup (mergeBlockInfo stored (parseDict exts b)) k2 =
          alookup (parseDict exts b) k2) := by
  refine ⟨?_, mergeBlockInfo_preserves stored _ k v hk,
    fun k2 h2 => mergeBlockInfo_absent stored _ k2 h2⟩
  unfold loadBlockConfig at hok
  by_cases hdep : (b.dependancies.any (fun d => (alookup s.blocks d).isNone)) = true
  · rw [if_pos hdep] at hok
    cases hok
  · rw [if_neg hdep] at hok
    simp only [registerBlock, hstored] at hok
    cases hin : installStage (ainsert s.blocks b.name
        (mergeBlockInfo stored (parseDict exts b))) s.installs b with
    | error e => rw [hin] at hok; cases hok
    | ok ir =>
      rw [hin] at hok
      cases hok
      exact alookup_ainsert_self _ _ _

/-- The stored record of the C1 witness block (registered with
`load_order = 9`). -/
def c1Stored : AList Val := [("name", Val.vstr "blog"), ("load_order", Val.vint 9)]

/-- The C1 witness block: its manifest was edited to `load_order = 1` and
gained a brand-new `color` field. -/
def c1Block : BlockSrc :=
  { name := "blog", requirements := [], dependancies := [],
    extraVal := .vnone, templatesVal := .vnone,
    otherFields := [("load_order", Val.vint 1), ("color", Val.vstr "red")] }

/-- A registry already holding the C1 witness block. -/
def c1State : RegistryState :=
  { blocks := [("blog", c1Stored)], installs := [],
    extra_block_settings := [.vnone], templates_dir := [.vnone],
    statics := [], hooks := emptyHooksTable, settings := [] }

/-- The registry after re-resolving the C1 witness block. -/
def c1ResultState : RegistryState :=
  { blocks := [("blog",
      [("name", Val.vstr "blog"), ("load_order", Val.vint 9),
       ("requirements", Val.vstrs []), ("dependancies", Val.vstrs []),
       ("templates_dir", Val.vnone), ("extra_block_settings", Val.vnone),
       ("color", Val.vstr "red")])],
    installs := [], extra_block_settings := [.vnone],
    templates_dir := [.vnone], statics := [], hooks := emptyHooksTable,
    settings := [] }

/-- C1 witness: re-resolving `"blog"` with a manifest that changes
`load_order` from 9 to 1 leaves the stored `load_order = 9` unchanged,
while the wholly new `color` key is inserted. -/
theorem load_block_config_additive_witness :
    alookup c1ResultState.blocks "blog" =
        some (mergeBlockInfo c1Stored (parseDict [] c1Block)) ∧
      alookup (mergeBlockInfo c1Stored (parseDict [] c1Block)) "load_order" =
        some (.vint 9) ∧
      alookup (mergeBlockInfo c1Stored (parseDict [] c1Block)) "color" =
        alookup (parseDict [] c1Block) "color" :=
  have h := load_block_config_additive [] c1State c1Block c1ResultState false
    c1Stored "load_order" (.vint 9) (by decide) (by decide) (by decide)
  ⟨h.1, h.2.1, h.2.2 "color" (by decide)⟩

/-! ## C3 — missing dependencies and the import-failure tolerance -/

/-- An environment with no importable extra-settings modules. -/
def noModulesEnv : ExtEnv := fun _ => .missing

/-- A block declaring a dependency on the unregistered block `"blog"`. -/
def missingDepBlock : BlockSrc :=
  { name := "comments", requirements := [], dependancies := ["blog"],
    extraVal := .vnone, templatesVal := .vnone, otherFields := [] }

/-- The registry a tolerant setup run leaves behind for
`missingDepBlock`: the block is skipped, only the settings table is
written. -/
def c3TolerantResult : RegistryState :=
  { blocks := [], installs := [], extra_block_settings := [],
    templates_dir := [], statics := [], hooks := emptyHooksTable,
    settings := [("allow_installs", Val.vbool false),
      ("blocks_folder", Val.vstr "blocks"),
      ("verify_blocks", Val.vbool false)] }

/-- C3 counterexample.  With `allow_block_import_failure = true`, a block
whose declared dependency is absent from the registry does *not* abort the
setup run: the generic `except` in `_setup_blocks` swallows the missing
dependency exception, the block is skipped, and `setup` completes
successfully (returning `requiresRestart = false`) — so dependency
integrity *is* subject to the import-failure tolerance. -/
theorem missing_dependency_swallowed :
    runSetup noModulesEnv { allow_block_import_failure := true }
        (some [missingDepBlock]) emptyRegistryState =
      .ok (c3TolerantResult, false) ∧
    c3TolerantResult.blocks = [] := by decide

/-- C3 amended.  With `allow_block_import_failure = false` (the default),
a manifest declaring a dependency absent from the registry's blocks
mapping at its resolution turn makes the whole `setup` run fail; with the
flag enabled the failure is swallowed like any per-block import failure
and the block is skipped. -/
theorem missing_dependency_fatal (env : ExtEnv) (cfg : SetupConfig)
    (s : RegistryState) (b : BlockSrc) (rest : List BlockSrc) (d : String)
    (hfail : cfg.allow_block_import_failure = false)
    (hd : d ∈ b.dependancies)
    (habs : alookup s.blocks d = none) :
    ∃ e, runSetup env cfg (some (b :: rest)) s = .error e := by
  have hany : (b.dependancies.any (fun x => (alookup s.blocks x).isNone)) = true := by
    rw [List.any_eq_true]
    exact ⟨d, hd, by simp [habs]⟩
  cases hbuild : buildSettingsClass env s.extra_block_settings with
  | error e =>
    exact ⟨e, by simp [runSetup, setupBlocks, hbuild]⟩
  | ok exts =>
    refine ⟨"Missing dependancy", ?_⟩
    have hload : loadBlockConfig exts s b = .error "Missing dependancy" := by
      unfold loadBlockConfig
      rw [if_pos hany]
    have hstep : blocksStep exts cfg (s, false) b = .error "Missing dependancy" := by
      simp [blocksStep, hload, hfail]
    simp [runSetup, setupBlocks, hbuild, List.foldlM, hstep, Bind.bind, Except.bind]

/-- C3 amended witness: with the default configuration the single-block
folder containing `missingDepBlock` makes setup fail. -/
theorem missing_dependency_fatal_witness :
    ∃ e, runSetup noModulesEnv {} (some (missingDepBlock :: [])) emptyRegistryState =
      .error e :=
  missing_dependency_fatal noModulesEnv {} emptyRegistryState missingDepBlock []
    "blog" (by decide) (by decide) (by decide)

/-! ## C6 — hook discovery totality -/

/-- C6.  Hook discovery invokes the four lifecycle accessors of the
composite settings class; with no settings extension in scope each
accessor yields the empty list (the base default of the mixin chain), and
the hooks phase of setup succeeds without error for any folder of such
blocks, changing nothing and requiring no restart. -/
theorem hook_discovery_defaults_to_empty (env : ExtEnv) (cfg : SetupConfig)
    (fs : List BlockSrc) (s : RegistryState)
    (hextra : s.extra_block_settings = []) :
    chainHooks ExtDef.setup_hooks [] = [] ∧
      chainHooks ExtDef.start_hooks [] = [] ∧
      chainHooks ExtDef.preload_hooks [] = [] ∧
      chainHooks ExtDef.postload_hooks [] = [] ∧
      setupHooksPhase env cfg (some fs) s = .ok (s, false) := by
  refine ⟨rfl, rfl, rfl, rfl, ?_⟩
  have hbuild : buildSettingsClass env s.extra_block_settings = .ok [] := by
    rw [hextra]
    rfl
  have hone : ∀ (acc : AList (AList (List String)) × Bool) (b : BlockSrc),
      hooksStep [] acc b = acc := by
    intro acc b
    simp [hooksStep, attachHook, chainHooks]
  have hstep : ∀ (init : AList (AList (List String)) × Bool),
      fs.foldl (hooksStep []) init = init := by
    intro init
    induction fs generalizing init with
    | nil => rfl
    | cons hd tl ih =>
      rw [List.foldl_cons, hone init hd]
      exact ih init
  unfold setupHooksPhase
  rw [hbuild]
  show Except.ok
      ({ s with hooks := (fs.foldl (hooksStep []) (s.hooks, false)).1 },
        (fs.foldl (hooksStep []) (s.hooks, false)).2) = .ok (s, false)
  rw [hstep (s.hooks, false)]

/-- C6 witness: the hooks phase on a one-block folder with no extensions
registered returns the registry unchanged. -/
theorem hook_discovery_defaults_to_empty_witness :
    chainHooks ExtDef.setup_hooks [] = [] ∧
      chainHooks ExtDef.start_hooks [] = [] ∧
      chainHooks ExtDef.preload_hooks [] = [] ∧
      chainHooks ExtDef.postload_hooks [] = [] ∧
      setupHooksPhase noModulesEnv {} (some [missingDepBlock]) emptyRegistryState =
        .ok (emptyRegistryState, false) :=
  hook_discovery_defaults_to_empty noModulesEnv {} [missingDepBlock]
    emptyRegistryState (by decide)

/-! ## C2 — idempotence of setup

Supporting lemmas about the additive merge, the parsed dump, each stage of
`_load_block_config`, and the hook tables; then the fixed-point theorem
and the counterexample. -/

theorem alookup_isSome_of_mem {α : Type} (l : AList α) (k : String) (v : α)
    (h : (k, v) ∈ l) : (alookup l k).isSome := by
  induction l with
  | nil => cases h
  | cons p rest ih =>
    obtain ⟨pk, pv⟩ := p
    rw [alookup_cons]
    by_cases hpk : pk = k
    · simp [hpk]
    · simp only [hpk, if_neg, not_false_iff]
      rcases List.mem_cons.mp h with heq | hmem
      · cases heq
        exact absurd rfl hpk
      · exact ih hmem

theorem mergeBlockInfo_eq_self (existing newRec : AList Val)
    (h : ∀ kv ∈ newRec, (alookup existing kv.1).isSome) :
    mergeBlockInfo existing newRec = existing := by
  induction newRec generalizing existing with
  | nil => rfl
  | cons kv rest ih =>
    obtain ⟨nk, nv⟩ := kv
    have hh : (alookup existing nk).isSome := h (nk, nv) (List.mem_cons_self _ _)
    simp only [mergeBlockInfo, List.foldl, hh, if_pos]
    exact ih existing (fun kv2 hm => h kv2 (List.mem_cons_of_mem _ hm))

theorem mergeBlockInfo_isSome_mono (existing newRec : AList Val) (k : String)
    (h : (alookup existing k).isSome) :
    (alookup (mergeBlockInfo existing newRec) k).isSome := by
  obtain ⟨v, hv⟩ := Option.isSome_iff_exists.mp h
  rw [mergeBlockInfo_preserves existing newRec k v hv]
  rfl

theorem mergeBlockInfo_covers (existing newRec : AList Val) (kv : String × Val)
    (h : kv ∈ newRec) :
    (alookup (mergeBlockInfo existing newRec) kv.1).isSome := by
  cases hx : alookup existing kv.1 with
  | some v =>
    rw [mergeBlockInfo_preserves existing newRec kv.1 v hx]
    rfl
  | none =>
    rw [mergeBlockInfo_absent existing newRec kv.1 hx]
    obtain ⟨k, v⟩ := kv
    exact alookup_isSome_of_mem newRec k v h

theorem foldl_merge_preserves (exts : List ExtDef) (acc : AList Val)
    (k : String) (v : Val) (h : alookup acc k = some v) :
    alookup (exts.foldl (fun a e => mergeBlockInfo a e.fields) acc) k = some v := by
  induction exts generalizing acc with
  | nil => exact h
  | cons e rest ih =>
    rw [List.foldl_cons]
    exact ih _ (mergeBlockInfo_preserves _ _ _ _ h)

theorem parseDict_preserves (exts : List ExtDef) (b : BlockSrc) (k : String)
    (v : Val) (h : alookup (baseDict b) k = some v) :
    alookup (parseDict exts b) k = some v :=
  foldl_merge_preserves exts (baseDict b) k v h

theorem parseDict_requirements (exts : List ExtDef) (b : BlockSrc) :
    alookup (parseDict exts b) "requirements" = some (.vstrs b.requirements) :=
  parseDict_preserves exts b "requirements" _ rfl

theorem parseDict_extra (exts : List ExtDef) (b : BlockSrc) :
    alookup (parseDict exts b) "extra_block_settings" = some b.extraVal :=
  parseDict_preserves exts b "extra_block_settings" _ rfl

theorem parseDict_templates (exts : List ExtDef) (b : BlockSrc) :
    alookup (parseDict exts b) "templates_dir" = some b.templatesVal :=
  parseDict_preserves exts b "templates_dir" _ rfl

/-- Everything a registry must already contain for a block's
`_load_block_config` to be a no-op: its dependencies and its own record
registered (the record covering every key of the freshly parsed dump and
carrying a `requirements` key), its requirements installed, and its
extra-settings / templates-dir values recorded. -/
def BlockReady (exts : List ExtDef) (s : RegistryState) (b : BlockSrc) : Prop :=
  (b.dependancies.any (fun d => (alookup s.blocks d).isNone)) = false ∧
    (∃ stored, alookup s.blocks b.name = some stored ∧
      (∀ kv ∈ parseDict exts b, (alookup stored kv.1).isSome) ∧
      (alookup stored "requirements").isSome) ∧
    (∀ r ∈ b.requirements, r ∈ s.installs) ∧
    b.extraVal ∈ s.extra_block_settings ∧
    b.templatesVal ∈ s.templates_dir

theorem installRequirements_fold_mem (reqs : List String)
    (acc : List String × Bool) (r : String)
    (h : r ∈ acc.1 ∨ r ∈ reqs) :
    r ∈ (reqs.foldl
      (fun acc2 x => if x ∈ acc2.1 then acc2 else (acc2.1 ++ [x], true))
      acc).1 := by
  induction reqs generalizing acc with
  | nil =>
    rcases h with h | h
    · exact h
    · cases h
  | cons x rest ih =>
    rw [List.foldl_cons]
    refine ih _ ?_
    by_cases hx : x ∈ acc.1
    · rw [if_pos hx]
      rcases h with h | h
      · exact Or.inl h
      · rcases List.mem_cons.mp h with heq | hmem
        · exact Or.inl (heq ▸ hx)
        · exact Or.inr hmem
    · rw [if_neg hx]
      rcases h with h | h
      · exact Or.inl (List.mem_append_left _ h)
      · rcases List.mem_cons.mp h with heq | hmem
        · exact Or.inl (by subst heq; exact List.mem_append_right _ (List.mem_singleton.mpr rfl))
        · exact Or.inr hmem

theorem installRequirements_no_new (installs reqs : List String)
    (h : ∀ r ∈ reqs, r ∈ installs) :
    installRequirements installs reqs = (installs, false) := by
  unfold installRequirements
  induction reqs with
  | nil => rfl
  | cons x rest ih =>
    rw [List.foldl_cons, if_pos (h x (List.mem_cons_self _ _))]
    exact ih (fun r hr => h r (List.mem_cons_of_mem _ hr))

/-- A ready block's `_load_block_config` changes nothing and requires no
restart. -/
theorem loadBlockConfig_noop (exts : List ExtDef) (s : RegistryState)
    (b : BlockSrc) (h : BlockReady exts s b) :
    loadBlockConfig exts s b = .ok (s, false) := by
  obtain ⟨hdep, ⟨stored, hst, hcov, hreq⟩, hinst, hextra, htdir⟩ := h
  have hreg : registerBlock s.blocks b.name (parseDict exts b) = s.blocks := by
    unfold registerBlock
    simp only [hst]
    rw [mergeBlockInfo_eq_self _ _ hcov, ainsert_of_lookup_eq _ _ _ hst]
  have her : registerExtraSettings s.extra_block_settings (parseDict exts b) =
      (s.extra_block_settings, false) := by
    unfold registerExtraSettings
    rw [parseDict_extra exts b]
    simp only [if_pos hextra]
  have his : installStage s.blocks s.installs b = .ok (s.installs, false) := by
    unfold installStage
    by_cases hbr : b.requirements = []
    · rw [if_neg (by simp [hbr])]
      obtain ⟨v, hv⟩ := Option.isSome_iff_exists.mp hreq
      simp only [hst, hv]
      by_cases hne : v = Val.vstrs b.requirements
      · rw [if_neg (by simp [hne])]
      · rw [if_pos hne, hbr]
        rfl
    · rw [if_pos (by simp [hbr]), installRequirements_no_new s.installs _ hinst]
  have htm : templatesStage s.templates_dir (parseDict exts b) =
      (s.templates_dir, false) := by
    unfold templatesStage
    rw [parseDict_templates exts b]
    simp only [if_pos htdir]
  have hdep2 : (b.dependancies.any (fun d => (alookup s.blocks d).isNone)) ≠ true := by
    simp [hdep]
  unfold loadBlockConfig
  rw [if_neg hdep2]
  simp only [hreg, her, his, htm]
  rfl

theorem mem_of_alookup {α : Type} (l : AList α) (k : String) (v : α)
    (h : alookup l k = some v) : (k, v) ∈ l := by
  induction l with
  | nil => cases h
  | cons p rest ih =>
    obtain ⟨pk, pv⟩ := p
    rw [alookup_cons] at h
    by_cases hpk : pk = k
    · rw [if_pos hpk] at h
      cases h
      subst hpk
      exact List.mem_cons_self _ _
    · rw [if_neg hpk] at h
      exact List.mem_cons_of_mem _ (ih h)

theorem registerBlock_isSome (blocks : AList (AList Val)) (name : String)
    (dict : AList Val) (k : String) (h : (alookup blocks k).isSome) :
    (alookup (registerBlock blocks name dict) k).isSome := by
  unfold registerBlock
  cases alookup blocks name with
  | none => exact alookup_isSome_ainsert _ _ _ _ h
  | some stored => exact alookup_isSome_ainsert _ _ _ _ h

theorem registerExtraSettings_mono (extras : List Val) (dict : AList Val)
    (v : Val) (h : v ∈ extras) :
    v ∈ (registerExtraSettings extras dict).1 := by
  unfold registerExtraSettings
  split
  · exact h
  · split
    · exact h
    · exact List.mem_append_left _ h

theorem templatesStage_mono (tdirs : List Val) (dict : AList Val)
    (v : Val) (h : v ∈ tdirs) :
    v ∈ (templatesStage tdirs dict).1 := by
  unfold templatesStage
  split
  · exact h
  · split
    · exact h
    · exact List.mem_append_left _ h

theorem registerExtraSettings_self (exts : List ExtDef) (extras : List Val)
    (b : BlockSrc) :
    b.extraVal ∈ (registerExtraSettings extras (parseDict exts b)).1 := by
  unfold registerExtraSettings
  rw [parseDict_extra exts b]
  show b.extraVal ∈
    (if b.extraVal ∈ extras then (extras, false) else (extras ++ [b.extraVal], true)).1
  by_cases hw : b.extraVal ∈ extras
  · rw [if_pos hw]
    exact hw
  · rw [if_neg hw]
    exact List.mem_append_right _ (List.mem_singleton.mpr rfl)

theorem templatesStage_self (exts : List ExtDef) (tdirs : List Val)
    (b : BlockSrc) :
    b.templatesVal ∈ (templatesStage tdirs (parseDict exts b)).1 := by
  unfold templatesStage
  rw [parseDict_templates exts b]
  show b.templatesVal ∈
    (if b.templatesVal ∈ tdirs then (tdirs, false) else (tdirs ++ [b.templatesVal], true)).1
  by_cases hw : b.templatesVal ∈ tdirs
  · rw [if_pos hw]
    exact hw
  · rw [if_neg hw]
    exact List.mem_append_right _ (List.mem_singleton.mpr rfl)

theorem installStage_mono (blocks : AList (AList Val)) (installs : List String)
    (b : BlockSrc) (ir : List String × Bool)
    (h : installStage blocks installs b = .ok ir) (x : String)
    (hx : x ∈ installs) : x ∈ ir.1 := by
  unfold installStage at h
  by_cases hbr : b.requirements = []
  · rw [if_neg (by simp [hbr])] at h
    cases hst : alookup blocks b.name with
    | none => rw [hst] at h; cases h
    | some stored =>
      rw [hst] at h
      cases hrv : alookup stored "requirements" with
      | none => simp only [hrv] at h; cases h
      | some v =>
        simp only [hrv] at h
        by_cases hne : v = Val.vstrs b.requirements
        · rw [if_neg (by simp [hne])] at h
          cases h
          exact hx
        · rw [if_pos hne] at h
          cases h
          exact installRequirements_fold_mem _ _ _ (Or.inl hx)
  · rw [if_pos (by simp [hbr])] at h
    cases h
    exact installRequirements_fold_mem _ _ _ (Or.inl hx)

theorem installStage_installs_all (blocks : AList (AList Val))
    (installs : List String) (b : BlockSrc) (ir : List String × Bool)
    (h : installStage blocks installs b = .ok ir) (x : String)
    (hx : x ∈ b.requirements) : x ∈ ir.1 := by
  unfold installStage at h
  by_cases hbr : b.requirements = []
  · rw [hbr] at hx
    cases hx
  · rw [if_pos (by simp [hbr])] at h
    cases h
    exact installRequirements_fold_mem _ _ _ (Or.inr hx)

/-- Inversion of a successful `_load_block_config`. -/
theorem loadBlockConfig_ok_inv (exts : List ExtDef) (s : RegistryState)
    (b : BlockSrc) (s2 : RegistryState) (r : Bool)
    (h : loadBlockConfig exts s b = .ok (s2, r)) :
    (b.dependancies.any (fun d => (alookup s.blocks d).isNone)) = false ∧
      ∃ ir, installStage (registerBlock s.blocks b.name (parseDict exts b))
          s.installs b = .ok ir ∧
        s2 = { s with
               blocks := registerBlock s.blocks b.name (parseDict exts b)
               extra_block_settings :=
                 (registerExtraSettings s.extra_block_settings (parseDict exts b)).1
               installs := ir.1
               templates_dir := (templatesStage s.templates_dir (parseDict exts b)).1 } := by
  unfold loadBlockConfig at h
  by_cases hdep : (b.dependancies.any (fun d => (alookup s.blocks d).isNone)) = true
  · rw [if_pos hdep] at h
    cases h
  · rw [if_neg hdep] at h
    refine ⟨by simpa using hdep, ?_⟩
    cases hin : installStage (registerBlock s.blocks b.name (parseDict exts b))
        s.installs b with
    | error e =>
      simp only [hin] at h
      cases h
    | ok ir =>
      simp only [hin, Except.ok.injEq, Prod.mk.injEq] at h
      exact ⟨ir, rfl, h.1.symm⟩

/-- A successful `_load_block_config` leaves its block ready. -/
theorem loadBlockConfig_establishes (exts : List ExtDef) (s : RegistryState)
    (b : BlockSrc) (s2 : RegistryState) (r : Bool)
    (h : loadBlockConfig exts s b = .ok (s2, r)) :
    BlockReady exts s2 b := by
  obtain ⟨hdep, ir, hin, hs2⟩ := loadBlockConfig_ok_inv exts s b s2 r h
  subst hs2
  refine ⟨?_, ?_, ?_, ?_, ?_⟩
  · rw [List.any_eq_false] at hdep ⊢
    intro d hd
    have hds := hdep d hd
    have hsome : (alookup s.blocks d).isSome := by
      cases hx : alookup s.blocks d with
      | none => rw [hx] at hds; simp at hds
      | some w => rfl
    have := registerBlock_isSome s.blocks b.name (parseDict exts b) d hsome
    simp only [Option.isNone_iff_eq_none]
    intro hc
    rw [hc] at this
    cases this
  · unfold registerBlock
    cases hst : alookup s.blocks b.name with
    | none =>
      refine ⟨parseDict exts b, alookup_ainsert_self _ _ _, ?_, ?_⟩
      · intro kv hkv
        obtain ⟨k, v⟩ := kv
        exact alookup_isSome_of_mem _ _ _ hkv
      · rw [parseDict_requirements exts b]
        rfl
    | some stored =>
      refine ⟨mergeBlockInfo stored (parseDict exts b), alookup_ainsert_self _ _ _,
        ?_, ?_⟩
      · intro kv hkv
        exact mergeBlockInfo_covers stored _ kv hkv
      · exact mergeBlockInfo_covers stored _ ("requirements", .vstrs b.requirements)
          (mem_of_alookup _ _ _ (parseDict_requirements exts b))
  · exact fun x hx => installStage_installs_all _ _ _ _ hin x hx
  · exact registerExtraSettings_self exts s.extra_block_settings b
  · exact templatesStage_self exts s.templates_dir b

/-- A block's readiness survives any other block's successful
`_load_block_config`. -/
theorem BlockReady_mono (exts : List ExtDef) (s : RegistryState) (b b2 : BlockSrc)
    (s2 : RegistryState) (r : Bool)
    (h : loadBlockConfig exts s b2 = .ok (s2, r))
    (hb : BlockReady exts s b) : BlockReady exts s2 b := by
  obtain ⟨hdep2, ir, hin, hs2⟩ := loadBlockConfig_ok_inv exts s b2 s2 r h
  subst hs2
  obtain ⟨hdep, ⟨stored, hst, hcov, hreq⟩, hinst, hextra, htdir⟩ := hb
  refine ⟨?_, ?_, ?_, ?_, ?_⟩
  · rw [List.any_eq_false] at hdep ⊢
    intro d hd
    have hds := hdep d hd
    have hsome : (alookup s.blocks d).isSome := by
      cases hx : alookup s.blocks d with
      | none => rw [hx] at hds; simp at hds
      | some w => rfl
    have := registerBlock_isSome s.blocks b2.name (parseDict exts b2) d hsome
    simp only [Option.isNone_iff_eq_none]
    intro hc
    rw [hc] at this
    cases this
  · unfold registerBlock
    by_cases hname : b2.name = b.name
    · rw [hname, hst]
      refine ⟨mergeBlockInfo stored (parseDict exts b2),
        hname ▸ alookup_ainsert_self _ _ _, ?_, ?_⟩
      · intro kv hkv
        exact mergeBlockInfo_isSome_mono stored _ kv.1 (hcov kv hkv)
      · exact mergeBlockInfo_isSome_mono stored _ "requirements" hreq
    · cases hst2 : alookup s.blocks b2.name with
      | none =>
        refine ⟨stored, ?_, hcov, hreq⟩
        rw [alookup_ainsert_ne _ _ _ _ (fun he => hname he.symm)]
        exact hst
      | some stored2 =>
        refine ⟨stored, ?_, hcov, hreq⟩
        rw [alookup_ainsert_ne _ _ _ _ (fun he => hname he.symm)]
        exact hst
  · exact fun x hx => installStage_mono _ _ _ _ hin x (hinst x hx)
  · exact registerExtraSettings_mono _ _ _ hextra
  · exact templatesStage_mono _ _ _ htdir

/-- Folding `_load_block_config` over a folder (with the import-failure
tolerance off) preserves readiness and leaves every processed block
ready. -/
theorem blocksFold_ok (exts : List ExtDef) (cfg : SetupConfig)
    (hfail : cfg.allow_block_import_failure = false) (fs : List BlockSrc) :
    ∀ (acc out : RegistryState × Bool),
      fs.foldlM (blocksStep exts cfg) acc = .ok out →
      (∀ b0, BlockReady exts acc.1 b0 → BlockReady exts out.1 b0) ∧
        (∀ b ∈ fs, BlockReady exts out.1 b) := by
  induction fs with
  | nil =>
    intro acc out h
    simp only [List.foldlM] at h
    cases h
    exact ⟨fun b0 hb0 => hb0, fun b hb => absurd hb (List.not_mem_nil b)⟩
  | cons b rest ih =>
    intro acc out h
    simp only [List.foldlM] at h
    cases hstep : blocksStep exts cfg acc b with
    | error e =>
      rw [hstep] at h
      simp [Bind.bind, Except.bind] at h
    | ok acc1 =>
      rw [hstep] at h
      simp only [Bind.bind, Except.bind] at h
      obtain ⟨mono2, ready2⟩ := ih acc1 out h
      unfold blocksStep at hstep
      cases hload : loadBlockConfig exts acc.1 b with
      | error e =>
        rw [hload, hfail] at hstep
        simp at hstep
      | ok res =>
        rw [hload] at hstep
        cases hstep
        obtain ⟨res1, res2⟩ := res
        constructor
        · intro b0 hb0
          exact mono2 b0 (BlockReady_mono exts acc.1 b0 b res1 res2 hload hb0)
        · intro b3 hb3
          rcases List.mem_cons.mp hb3 with heq | hmem
          · subst heq
            exact mono2 b3
              (loadBlockConfig_establishes exts acc.1 b3 res1 res2 hload)
          · exact ready2 b3 hmem

/-- Folding `_load_block_config` over a folder of ready blocks changes
nothing and reports no restart. -/
theorem blocksFold_noop (exts : List ExtDef) (cfg : SetupConfig)
    (fs : List BlockSrc) (s : RegistryState)
    (hready : ∀ b ∈ fs, BlockReady exts s b) :
    fs.foldlM (blocksStep exts cfg) (s, false) = .ok (s, false) := by
  induction fs with
  | nil => rfl
  | cons b rest ih =>
    have hstep : blocksStep exts cfg (s, false) b = .ok (s, false) := by
      unfold blocksStep
      rw [loadBlockConfig_noop exts s b (hready b (List.mem_cons_self _ _))]
      rfl
    simp only [List.foldlM, hstep, Bind.bind, Except.bind]
    exact ih (fun b2 h2 => hready b2 (List.mem_cons_of_mem _ h2))

/-- A hook callable recorded in the hooks table under
`(group, module, function)` — the identity `_attach_hook` deduplicates
by. -/
def HookPresent (h : AList (AList (List String))) (group modName fnName : String) :
    Prop :=
  ∃ gd fns, alookup h group = some gd ∧ alookup gd modName = some fns ∧
    fnName ∈ fns

theorem attachOne_present (h : AList (AList (List String)))
    (group modName fnName : String) (hp : HookPresent h group modName fnName) :
    attachOne h group modName fnName = (h, false) := by
  obtain ⟨gd, fns, hg, hm, hf⟩ := hp
  unfold attachOne
  simp only [hg, hm, if_pos hf]

theorem attachOne_establishes (h : AList (AList (List String)))
    (group modName fnName : String) :
    HookPresent (attachOne h group modName fnName).1 group modName fnName := by
  unfold attachOne
  cases hg : alookup h group with
  | none =>
    exact ⟨[(modName, [fnName])], [fnName], alookup_ainsert_self _ _ _,
      by simp [alookup], List.mem_singleton.mpr rfl⟩
  | some gd =>
    cases hm : alookup gd modName with
    | none =>
      simp only [hm]
      exact ⟨ainsert gd modName [fnName], [fnName], alookup_ainsert_self _ _ _,
        alookup_ainsert_self _ _ _, List.mem_singleton.mpr rfl⟩
    | some fns =>
      simp only [hm]
      by_cases hf : fnName ∈ fns
      · rw [if_pos hf]
        exact ⟨gd, fns, hg, hm, hf⟩
      · rw [if_neg hf]
        exact ⟨ainsert gd modName (fns ++ [fnName]), fns ++ [fnName],
          alookup_ainsert_self _ _ _, alookup_ainsert_self _ _ _,
          List.mem_append_right _ (List.mem_singleton.mpr rfl)⟩

theorem attachOne_mono (h : AList (AList (List String)))
    (group modName fnName g2 m2 f2 : String)
    (hp : HookPresent h g2 m2 f2) :
    HookPresent (attachOne h group modName fnName).1 g2 m2 f2 := by
  obtain ⟨gd2, fns2, hg2, hm2, hf2⟩ := hp
  unfold attachOne
  cases hg : alookup h group with
  | none =>
    by_cases hgg : g2 = group
    · rw [hgg] at hg2
      rw [hg] at hg2
      cases hg2
    · exact ⟨gd2, fns2, by rw [alookup_ainsert_ne _ _ _ _ hgg]; exact hg2, hm2, hf2⟩
  | some gd =>
    cases hm : alookup gd modName with
    | none =>
      simp only [hm]
      by_cases hgg : g2 = group
      · subst hgg
        rw [hg] at hg2
        cases hg2
        by_cases hmm : m2 = modName
        · rw [hmm] at hm2
          rw [hm] at hm2
          cases hm2
        · exact ⟨ainsert gd2 modName [fnName], fns2, alookup_ainsert_self _ _ _,
            by rw [alookup_ainsert_ne _ _ _ _ hmm]; exact hm2, hf2⟩
      · exact ⟨gd2, fns2, by rw [alookup_ainsert_ne _ _ _ _ hgg]; exact hg2, hm2, hf2⟩
    | some fns =>
      simp only [hm]
      by_cases hf : fnName ∈ fns
      · rw [if_pos hf]
        exact ⟨gd2, fns2, hg2, hm2, hf2⟩
      · rw [if_neg hf]
        by_cases hgg : g2 = group
        · subst hgg
          rw [hg] at hg2
          cases hg2
          by_cases hmm : m2 = modName
          · subst hmm
            rw [hm] at hm2
            cases hm2
            exact ⟨ainsert gd2 m2 (fns2 ++ [fnName]), fns2 ++ [fnName],
              alookup_ainsert_self _ _ _, alookup_ainsert_self _ _ _,
              List.mem_append_left _ hf2⟩
          · exact ⟨ainsert gd2 modName (fns ++ [fnName]), fns2,
              alookup_ainsert_self _ _ _,
              by rw [alookup_ainsert_ne _ _ _ _ hmm]; exact hm2, hf2⟩
        · exact ⟨gd2, fns2, by rw [alookup_ainsert_ne _ _ _ _ hgg]; exact hg2, hm2, hf2⟩

theorem attachHook_noop (h : AList (AList (List String))) (group : String)
    (pairs : List (String × String))
    (hp : ∀ p ∈ pairs, HookPresent h group p.1 p.2) :
    attachHook h group pairs = (h, false) := by
  unfold attachHook
  induction pairs with
  | nil => rfl
  | cons q rest ih =>
    rw [List.foldl_cons, attachOne_present h group q.1 q.2
      (hp q (List.mem_cons_self _ _))]
    exact ih (fun p hp2 => hp p (List.mem_cons_of_mem _ hp2))

theorem attachHook_fold_mono (group : String) (pairs : List (String × String))
    (acc : AList (AList (List String)) × Bool) (g2 m2 f2 : String)
    (hp : HookPresent acc.1 g2 m2 f2) :
    HookPresent
      ((pairs.foldl
        (fun a p =>
          let r := attachOne a.1 group p.1 p.2
          (r.1, a.2 || r.2)) acc).1) g2 m2 f2 := by
  induction pairs generalizing acc with
  | nil => exact hp
  | cons q rest ih =>
    rw [List.foldl_cons]
    exact ih _ (attachOne_mono acc.1 group q.1 q.2 g2 m2 f2 hp)

theorem attachHook_mono (h : AList (AList (List String))) (group : String)
    (pairs : List (String × String)) (g2 m2 f2 : String)
    (hp : HookPresent h g2 m2 f2) :
    HookPresent (attachHook h group pairs).1 g2 m2 f2 :=
  attachHook_fold_mono group pairs (h, false) g2 m2 f2 hp

theorem attachHook_fold_establishes (group : String)
    (pairs : List (String × String)) (acc : AList (AList (List String)) × Bool)
    (p : String × String)
    (hp : HookPresent acc.1 group p.1 p.2 ∨ p ∈ pairs) :
    HookPresent
      ((pairs.foldl
        (fun a q =>
          let r := attachOne a.1 group q.1 q.2
          (r.1, a.2 || r.2)) acc).1) group p.1 p.2 := by
  induction pairs generalizing acc with
  | nil =>
    rcases hp with hp | hp
    · exact hp
    · cases hp
  | cons q rest ih =>
    rw [List.foldl_cons]
    refine ih _ ?_
    rcases hp with hp | hp
    · exact Or.inl (attachOne_mono acc.1 group q.1 q.2 group p.1 p.2 hp)
    · rcases List.mem_cons.mp hp with heq | hmem
      · subst heq
        exact Or.inl (attachOne_establishes acc.1 group p.1 p.2)
      · exact Or.inr hmem

theorem attachHook_establishes (h : AList (AList (List String))) (group : String)
    (pairs : List (String × String)) (p : String × String) (hp : p ∈ pairs) :
    HookPresent (attachHook h group pairs).1 group p.1 p.2 :=
  attachHook_fold_establishes group pairs (h, false) p (Or.inr hp)

/-- Every hook the composite class contributes is recorded in the table. -/
def HooksReady (exts : List ExtDef) (h : AList (AList (List String))) : Prop :=
  (∀ p ∈ chainHooks ExtDef.setup_hooks exts, HookPresent h "_setup_hooks" p.1 p.2) ∧
    (∀ p ∈ chainHooks ExtDef.start_hooks exts, HookPresent h "_start_hooks" p.1 p.2) ∧
    (∀ p ∈ chainHooks ExtDef.preload_hooks exts,
      HookPresent h "_block_preload_hooks" p.1 p.2) ∧
    (∀ p ∈ chainHooks ExtDef.postload_hooks exts,
      HookPresent h "_block_postload_hooks" p.1 p.2)

theorem hooksStep_noop (exts : List ExtDef)
    (acc : AList (AList (List String)) × Bool) (b : BlockSrc)
    (hr : HooksReady exts acc.1) : hooksStep exts acc b = acc := by
  obtain ⟨r1, r2, r3, r4⟩ := hr
  unfold hooksStep
  simp only [attachHook_noop _ _ _ r1, attachHook_noop _ _ _ r2,
    attachHook_noop _ _ _ r3, attachHook_noop _ _ _ r4, Bool.or_false]

theorem hooksStep_establishes (exts : List ExtDef)
    (acc : AList (AList (List String)) × Bool) (b : BlockSrc) :
    HooksReady exts (hooksStep exts acc b).1 := by
  show HooksReady exts
    (attachHook
      (attachHook
        (attachHook
          (attachHook acc.1 "_setup_hooks" (chainHooks ExtDef.setup_hooks exts)).1
          "_start_hooks" (chainHooks ExtDef.start_hooks exts)).1
        "_block_preload_hooks" (chainHooks ExtDef.preload_hooks exts)).1
      "_block_postload_hooks" (chainHooks ExtDef.postload_hooks exts)).1
  refine ⟨?_, ?_, ?_, ?_⟩
  · intro p hp
    exact attachHook_mono _ _ _ _ _ _ (attachHook_mono _ _ _ _ _ _
      (attachHook_mono _ _ _ _ _ _ (attachHook_establishes _ _ _ p hp)))
  · intro p hp
    exact attachHook_mono _ _ _ _ _ _ (attachHook_mono _ _ _ _ _ _
      (attachHook_establishes _ _ _ p hp))
  · intro p hp
    exact attachHook_mono _ _ _ _ _ _ (attachHook_establishes _ _ _ p hp)
  · intro p hp
    exact attachHook_establishes _ _ _ p hp

theorem hooksFold_noop (exts : List ExtDef) (fs : List BlockSrc)
    (init : AList (AList (List String)) × Bool)
    (hr : HooksReady exts init.1) :
    fs.foldl (hooksStep exts) init = init := by
  induction fs with
  | nil => rfl
  | cons b rest ih =>
    rw [List.foldl_cons, hooksStep_noop exts init b hr]
    exact ih

theorem hooksFold_tail_ready (exts : List ExtDef) (rest : List BlockSrc)
    (acc : AList (AList (List String)) × Bool)
    (hr : HooksReady exts acc.1) :
    HooksReady exts (rest.foldl (hooksStep exts) acc).1 := by
  induction rest generalizing acc with
  | nil => exact hr
  | cons b tl ih =>
    rw [List.foldl_cons]
    exact ih _ (hooksStep_establishes exts acc b)

theorem hooksFold_establishes (exts : List ExtDef) (b : BlockSrc)
    (rest : List BlockSrc) (init : AList (AList (List String)) × Bool) :
    HooksReady exts ((b :: rest).foldl (hooksStep exts) init).1 := by
  rw [List.foldl_cons]
  exact hooksFold_tail_ready exts rest _ (hooksStep_establishes exts init b)

theorem writeSettingsTable_idem (cfg : SetupConfig) (t : AList Val) :
    writeSettingsTable cfg (writeSettingsTable cfg t) = writeSettingsTable cfg t := by
  unfold writeSettingsTable
  have h1 : alookup
      (ainsert (ainsert (ainsert t "allow_installs" (.vbool cfg.allow_installs))
        "blocks_folder" (.vstr cfg.blocks_folder)) "verify_blocks"
        (.vbool cfg.verify_blocks)) "allow_installs" =
      some (.vbool cfg.allow_installs) := by
    rw [alookup_ainsert_ne _ _ _ _ (by decide), alookup_ainsert_ne _ _ _ _ (by decide),
      alookup_ainsert_self]
  rw [ainsert_of_lookup_eq _ _ _ h1]
  have h2 : alookup
      (ainsert (ainsert (ainsert t "allow_installs" (.vbool cfg.allow_installs))
        "blocks_folder" (.vstr cfg.blocks_folder)) "verify_blocks"
        (.vbool cfg.verify_blocks)) "blocks_folder" =
      some (.vstr cfg.blocks_folder) := by
    rw [alookup_ainsert_ne _ _ _ _ (by decide), alookup_ainsert_self]
  rw [ainsert_of_lookup_eq _ _ _ h2]
  exact ainsert_of_lookup_eq _ _ _ (alookup_ainsert_self _ _ _)

theorem saveSettingsToml_ok_inv (cfg : SetupConfig) (s s2 : RegistryState)
    (h : saveSettingsToml cfg s = .ok s2) :
    s2 = { s with settings := writeSettingsTable cfg s.settings } ∧
      stateHasNone s2 = false := by
  unfold saveSettingsToml at h
  by_cases hn :
      stateHasNone { s with settings := writeSettingsTable cfg s.settings } = true
  · rw [if_pos hn] at h
    cases h
  · rw [if_neg hn] at h
    cases h
    exact ⟨rfl, by simpa using hn⟩

/-- A state the save step just produced saves again unchanged: the three
settings assignments are idempotent and the document is already known to
be `None`-free. -/
theorem saveSettingsToml_fixed (cfg : SetupConfig) (s s2 : RegistryState)
    (h : saveSettingsToml cfg s = .ok s2) :
    saveSettingsToml cfg s2 = .ok s2 := by
  obtain ⟨heq, hnone⟩ := saveSettingsToml_ok_inv cfg s s2 h
  subst heq
  unfold saveSettingsToml
  simp only [writeSettingsTable_idem]
  rw [if_neg (by simp [hnone])]

theorem BlockReady_of_fields (exts : List ExtDef) (s s2 : RegistryState)
    (b : BlockSrc) (hb : s2.blocks = s.blocks) (hi : s2.installs = s.installs)
    (he : s2.extra_block_settings = s.extra_block_settings)
    (ht : s2.templates_dir = s.templates_dir)
    (h : BlockReady exts s b) : BlockReady exts s2 b := by
  unfold BlockReady at h ⊢
  rw [hb, hi, he, ht]
  exact h

/-- C2 amended.  A `setup()` run that completes with the import-failure
tolerance off and registers no new settings-extension module (its
`extra_block_settings` collection ends where it started — always the case
from the second run onward) is a fixed point: running `setup()` again with
the same blocks folder leaves the registry state identical and returns
`requiresRestart = false`. -/
theorem setup_second_run_fixed_point (env : ExtEnv) (cfg : SetupConfig)
    (fsOpt : Option (List BlockSrc)) (s₀ s₁ : RegistryState) (r₁ : Bool)
    (hfail : cfg.allow_block_import_failure = false)
    (h1 : runSetup env cfg fsOpt s₀ = .ok (s₁, r₁))
    (hext : s₁.extra_block_settings = s₀.extra_block_settings) :
    runSetup env cfg fsOpt s₁ = .ok (s₁, false) := by
  cases fsOpt with
  | none =>
    exfalso
    unfold runSetup setupBlocks at h1
    cases hbuild : buildSettingsClass env s₀.extra_block_settings with
    | error e =>
      simp only [hbuild] at h1
      cases h1
    | ok exts =>
      simp only [hbuild] at h1
      cases h1
  | some fs =>
    unfold runSetup at h1
    cases hB : setupBlocks env cfg (some fs) s₀ with
    | error e =>
      simp only [hB] at h1
      cases h1
    | ok bres =>
      simp only [hB] at h1
      cases hH : setupHooksPhase env cfg (some fs) bres.1 with
      | error e =>
        simp only [hH] at h1
        cases h1
      | ok hres =>
        simp only [hH] at h1
        cases hS : saveSettingsToml cfg hres.1 with
        | error e =>
          simp only [hS] at h1
          cases h1
        | ok sSaved =>
          simp only [hS, Except.ok.injEq, Prod.mk.injEq] at h1
          obtain ⟨hsv, _hr₁⟩ := h1
          subst hsv
          unfold setupBlocks at hB
          cases hbuild : buildSettingsClass env s₀.extra_block_settings with
          | error e =>
            simp only [hbuild] at hB
            cases hB
          | ok exts =>
            simp only [hbuild] at hB
            unfold setupHooksPhase at hH
            cases hbuild2 : buildSettingsClass env bres.1.extra_block_settings with
            | error e =>
              simp only [hbuild2] at hH
              cases hH
            | ok exts2 =>
              simp only [hbuild2, Except.ok.injEq] at hH
              subst hH
              obtain ⟨hseq, _hsnone⟩ := saveSettingsToml_ok_inv cfg _ sSaved hS
              have hsb : sSaved.blocks = bres.1.blocks := by rw [hseq]
              have hsi : sSaved.installs = bres.1.installs := by rw [hseq]
              have hse : sSaved.extra_block_settings = bres.1.extra_block_settings := by
                rw [hseq]
              have hst : sSaved.templates_dir = bres.1.templates_dir := by rw [hseq]
              have hsh : sSaved.hooks =
                  (fs.foldl (hooksStep exts2) (bres.1.hooks, false)).1 := by rw [hseq]
              have hext2 : bres.1.extra_block_settings = s₀.extra_block_settings := by
                rw [← hse]
                exact hext
              have hexts : exts2 = exts := by
                rw [hext2] at hbuild2
                rw [hbuild] at hbuild2
                exact (Except.ok.inj hbuild2).symm
              subst hexts
              obtain ⟨_hmono, hready⟩ :=
                blocksFold_ok exts2 cfg hfail fs (s₀, false) bres hB
              have hbuild3 : buildSettingsClass env sSaved.extra_block_settings =
                  .ok exts2 := by
                rw [hse, hext2]
                exact hbuild
              have hready2 : ∀ b ∈ fs, BlockReady exts2 sSaved b :=
                fun b hb =>
                  BlockReady_of_fields exts2 bres.1 sSaved b hsb hsi hse hst
                    (hready b hb)
              have hB2 : setupBlocks env cfg (some fs) sSaved = .ok (sSaved, false) := by
                unfold setupBlocks
                simp only [hbuild3]
                exact blocksFold_noop exts2 cfg fs sSaved hready2
              have hH2 : setupHooksPhase env cfg (some fs) sSaved =
                  .ok (sSaved, false) := by
                unfold setupHooksPhase
                simp only [hbuild3]
                cases fs with
                | nil => rfl
                | cons b rest =>
                  have hhr : HooksReady exts2 sSaved.hooks := by
                    rw [hsh]
                    exact hooksFold_establishes exts2 b rest _
                  have hfold := hooksFold_noop exts2 (b :: rest)
                    (sSaved.hooks, false) hhr
                  simp only [hfold]
              have hfix : saveSettingsToml cfg sSaved = .ok sSaved :=
                saveSettingsToml_fixed cfg _ sSaved hS
              unfold runSetup
              simp only [hB2, hH2, hfix]
              rfl

/-- A settings extension declaring one extra manifest field
(`is_main : bool = False`, dumped as `False`). -/
def extBlog : ExtDef := { fields := [("is_main", Val.vbool false)] }

/-- An environment in which `blocks.blog.settings` is importable and
contributes `extBlog`. -/
def blogEnv : ExtEnv :=
  fun s => if s = "blocks.blog.settings" then .ext extBlog else .missing

/-- A block declaring a settings extension.  Every optional manifest field
is set, so its dump — and the registry documents built from it — carry no
`None` value and `tomli_w.dump` accepts them. -/
def blogSrc : BlockSrc :=
  { name := "blog", requirements := ["jinja2"], dependancies := [],
    extraVal := .vstr "blocks.blog.settings",
    templatesVal := .vstr "/proj/blocks/blog/templates",
    otherFields := [("version", .vstr "0.1"),
      ("block_path", .vstr "/proj/blocks/blog"),
      ("statics", .vstr "/proj/blocks/blog/static"),
      ("template_router", .vstr "blocks.blog.router"),
      ("api_router", .vstr "blocks.blog.api_router"),
      ("module", .vstr "blocks.blog"), ("load_order", .vint 9)] }

/-- The `blogSrc` record as parsed without the extension active. -/
def blogRecord : AList Val :=
  [("name", .vstr "blog"), ("requirements", .vstrs ["jinja2"]),
   ("dependancies", .vstrs []),
   ("templates_dir", .vstr "/proj/blocks/blog/templates"),
   ("extra_block_settings", .vstr "blocks.blog.settings"),
   ("version", .vstr "0.1"), ("block_path", .vstr "/proj/blocks/blog"),
   ("statics", .vstr "/proj/blocks/blog/static"),
   ("template_router", .vstr "blocks.blog.router"),
   ("api_router", .vstr "blocks.blog.api_router"),
   ("module", .vstr "blocks.blog"), ("load_order", .vint 9)]

/-- The registry after the first completed `setup` run from the empty
state: the extension module is registered, but `blog`'s record was parsed
before the extension was known and lacks `is_main`.  The document is
`None`-free, so the save step succeeds. -/
def c2FirstState : RegistryState :=
  { blocks := [("blog", blogRecord)], installs := ["jinja2"],
    extra_block_settings := [.vstr "blocks.blog.settings"],
    templates_dir := [.vstr "/proj/blocks/blog/templates"], statics := [],
    hooks := emptyHooksTable,
    settings := [("allow_installs", .vbool false),
      ("blocks_folder", .vstr "blocks"), ("verify_blocks", .vbool false)] }

/-- The registry after the second run: the composite class now includes the
extension, so the block's dump gains `is_main = False`, which the additive
merge inserts; the document stays `None`-free and saves. -/
def c2SecondState : RegistryState :=
  { blocks := [("blog", blogRecord ++ [("is_main", Val.vbool false)])],
    installs := ["jinja2"],
    extra_block_settings := [.vstr "blocks.blog.settings"],
    templates_dir := [.vstr "/proj/blocks/blog/templates"], statics := [],
    hooks := emptyHooksTable,
    settings := [("allow_installs", .vbool false),
      ("blocks_folder", .vstr "blocks"), ("verify_blocks", .vbool false)] }

/-- C2 counterexample.  Setup is *not* idempotent after one completed run:
the first run (from the empty registry) registers `blog`'s settings
extension; the second run — with no filesystem change — parses the block
with the now-active extension, whose `is_main = False` default is a wholly
new key that the additive merge inserts into the stored record.  Both runs
save successfully (the document never holds a `None`), the second returns
`requiresRestart = false`, but the persisted registry state is not
identical. -/
theorem setup_not_idempotent :
    runSetup blogEnv {} (some [blogSrc]) emptyRegistryState =
        .ok (c2FirstState, true) ∧
      runSetup blogEnv {} (some [blogSrc]) c2FirstState =
        .ok (c2SecondState, false) ∧
      c2SecondState ≠ c2FirstState := by decide

/-- C2 amended witness: the second run registered no new extension, so the
third run is a no-op on `c2SecondState` and returns
`requiresRestart = false`. -/
theorem setup_second_run_fixed_point_witness :
    runSetup blogEnv {} (some [blogSrc]) c2SecondState =
      .ok (c2SecondState, false) :=
  setup_second_run_fixed_point blogEnv {} (some [blogSrc]) c2FirstState
    c2SecondState false rfl (by decide) (by decide)

end FastapiBlocks
